import Mathlib

/-!
# Temperature-model recurrences (TMAU-2025, `trunk/as06602`)

A shallow embedding of the two programs under `trunk/as06602`:

* `task_02/src/model.cpp`, `task_02/src/main.cpp` — the free functions `linearModel`,
  `nonlinearModel`, `simulateLinear`, `simulateNonlinear` and the driver `main`;
* `task01/src/main.cpp` — the class `TemperatureModel`.

Conventions of the embedding.

* `double` is a type `α` with the operations the code uses (a field for `task01` and for
  `main`, whose literals need one); `sin` from `<cmath>` is a parameter `sin : α → α`.  The
  theorems instantiate `α` with `ℝ` and `sin` with `Real.sin`; all definitions are computable
  and can be run over `ℚ`, and `simulateLinear` also over the model `Binary64` of rounded
  `double` arithmetic given below.
* `int` is `Int`.  The one `int` operation of the code that can overflow, the vector size
  `n + 1` of `simulateLinear` and `simulateNonlinear`, is `intAdd`, which has no result
  outside the 32-bit range; loop counters never exceed the step count.  Memory is not a
  bounded resource.
* `std::vector<double>` is `List α`.  `operator[]` is embedded bounds-checked: an access
  outside the vector makes the enclosing function return `none`.
* a counting loop `for (int t = 0; t < n; t++) body` is a left fold of `body` over
  `List.range n.toNat` (the body never writes `t` or `n`; for `n ≤ 0` the range is empty).
* text written to a stream is a list of lines or events; the numbers of a table row are
  kept as values, their formatting is not embedded.
-/

namespace TMAU

/-! ## `task_02/src/model.cpp` -/

namespace Task02

variable {α : Type}

/-- `nonlinearModel` (model.cpp, lines 5-8). -/
def nonlinearModel [Add α] [Sub α] [Mul α] (sin : α → α) (a b_nl c d y_t u_t u_prev : α) : α :=
  a * y_t - b_nl * y_t * y_t + c * u_t + d * sin u_prev

/-- `linearModel` (model.cpp, lines 10-12). -/
def linearModel [Add α] [Mul α] (a b y_t u_t : α) : α :=
  a * y_t + b * u_t

/-- Least value of a 32-bit `int`. -/
def INT_MIN : Int := -2147483648

/-- Greatest value of a 32-bit `int`. -/
def INT_MAX : Int := 2147483647

/-- Addition of two `int` values: the sum when it is an `int`, no result when it overflows
(signed overflow is undefined). -/
def intAdd (x y : Int) : Option Int :=
  if INT_MIN ≤ x + y ∧ x + y ≤ INT_MAX then some (x + y) else none

/-- `std::vector<double> y(k)`: a vector of `k` value-initialised (zero) elements.  A negative
`int` count is not a size, no vector is produced. -/
def vectorOfSize [Zero α] (k : Int) : Option (List α) :=
  if 0 ≤ k then some (List.replicate k.toNat 0) else none

/-- `y[i] = v`, bounds-checked. -/
def assign (y : List α) (i : Nat) (v : α) : Option (List α) :=
  if i < y.length then some (y.set i v) else none

/-- Body of the loop of `simulateLinear` (model.cpp, line 18): `y[t + 1] = linearModel(a, b, y[t], u0)`. -/
def simulateLinear.body [Add α] [Mul α] (a b u0 : α) (y : List α) (t : Nat) :
    Option (List α) := do
  let y_t ← y[t]?
  assign y (t + 1) (linearModel a b y_t u0)

/-- `simulateLinear` (model.cpp, lines 14-21).  The size `n + 1` is computed in `int`. -/
def simulateLinear [Zero α] [Add α] [Mul α] (n : Int) (a b y0 u0 : α) : Option (List α) := do
  let size ← intAdd n 1
  let y ← vectorOfSize size
  let y ← assign y 0 y0
  (List.range n.toNat).foldlM (simulateLinear.body a b u0) y

/-- Body of the loop of `simulateNonlinear` (model.cpp, lines 27-28). -/
def simulateNonlinear.body [Add α] [Sub α] [Mul α] (sin : α → α) (a b_nl c d u0 : α)
    (y : List α) (t : Nat) : Option (List α) := do
  let u_prev := u0
  let y_t ← y[t]?
  assign y (t + 1) (nonlinearModel sin a b_nl c d y_t u0 u_prev)

/-- `simulateNonlinear` (model.cpp, lines 23-31).  The size `n + 1` is computed in `int`. -/
def simulateNonlinear [Zero α] [Add α] [Sub α] [Mul α] (sin : α → α) (n : Int)
    (a b_nl c d y0 u0 : α) : Option (List α) := do
  let size ← intAdd n 1
  let y ← vectorOfSize size
  let y ← assign y 0 y0
  (List.range n.toNat).foldlM (simulateNonlinear.body sin a b_nl c d u0) y

/-! ## `task_02/src/main.cpp` -/

/-- A call from `main` into `model.cpp`, with its arguments. -/
inductive Call (α : Type) where
  | simulateLinear (n : Int) (a b y0 u0 : α)
  | simulateNonlinear (n : Int) (a b_nl c d y0 u0 : α)

/-- What a run of `main` does that is visible from outside, one event per statement
executed: a text written to `cout`, a line `t=<t>  y=<y>` written to `cout`, a text written
to `cerr`, a call into `model.cpp`. -/
inductive Event (α : Type) where
  | cout (text : String)
  | coutValue (t : Nat) (y : α)
  | cerr (text : String)
  | call (c : Call α)

/-- The calls recorded in a trace, in order. -/
def calls : List (Event α) → List (Call α)
  | [] => []
  | Event.call c :: rest => c :: calls rest
  | _ :: rest => calls rest

/-- The statement `y_linear = simulateLinear(n, a, b, y0, u0)` of `main` (main.cpp, line
27): the call is run, recorded in the trace, and its result returned. -/
def callSimulateLinear [Zero α] [Add α] [Mul α] (trace : List (Event α)) (n : Int)
    (a b y0 u0 : α) : Option (List α × List (Event α)) := do
  let y ← simulateLinear n a b y0 u0
  some (y, trace ++ [Event.call (Call.simulateLinear n a b y0 u0)])

/-- The statement `y_nonlinear = simulateNonlinear(n, a, b_nl, c, d, y0, u0)` of `main`
(main.cpp, line 28): the call is run, recorded in the trace, and its result returned. -/
def callSimulateNonlinear [Zero α] [Add α] [Sub α] [Mul α] (sin : α → α)
    (trace : List (Event α)) (n : Int) (a b_nl c d y0 u0 : α) :
    Option (List α × List (Event α)) := do
  let y ← simulateNonlinear sin n a b_nl c d y0 u0
  some (y, trace ++ [Event.call (Call.simulateNonlinear n a b_nl c d y0 u0)])

/-- The printing loops of `main` (main.cpp, lines 33-35 and 38-40):
`for (int t = 1; t <= n; t++) cout << "t=" << t << "  y=" << y[t] << '\n'`, with `y[t]`
bounds-checked. -/
def printTrajectory (trace : List (Event α)) (n : Int) (y : List α) :
    Option (List (Event α)) :=
  (List.range' 1 n.toNat).foldlM
    (fun trace t => do
      let y_t ← y[t]?
      some (trace ++ [Event.coutValue t y_t]))
    trace

/-- `main` (main.cpp, lines 8-43) as a function of the value `n` that `cin >> n` stored: the
exit status and the trace of the run.  `none` is an abnormal termination (a fault inside a
simulation or an access out of range). -/
def main [Field α] (sin : α → α) (n : Int) : Option (Int × List (Event α)) :=
  let trace : List (Event α) := [Event.cout "Введите количество шагов моделирования: "]
  if n ≤ 0 ∨ n > 1000000 then
    some (1, trace ++
      [Event.cerr "Ошибка: n должно быть положительным и не превышать 1,000,000.\n"])
  else do
    let A : α := 0.8
    let B : α := 0.1
    let B_NL : α := 0.12
    let C : α := 0.05
    let D : α := 0.02
    let Y0 : α := 20.0
    let U0 : α := 5.0
    let (y_linear, trace) ← callSimulateLinear trace n A B Y0 U0
    let (y_nonlinear, trace) ← callSimulateNonlinear sin trace n A B_NL C D Y0 U0
    let trace := trace ++ [Event.cout "Результаты моделирования:\n"]
    let trace := trace ++ [Event.cout "\n--- Линейная модель ---\n"]
    let trace ← printTrajectory trace n y_linear
    let trace := trace ++ [Event.cout "\n--- Нелинейная модель ---\n"]
    let trace ← printTrajectory trace n y_nonlinear
    some (0, trace)

end Task02

/-! ## `double` arithmetic

The properties below are stated over the real numbers.  Where a property of the real-number
reading does not carry over to the `double` arithmetic the code runs in, that is shown on
the following model of binary64 multiplication and addition (round to nearest, ties to
even; results in the normal range, so neither overflow nor subnormal numbers appear). -/

/-- A binary64 value, written `m * 2 ^ e` with an integer significand `m`; the operations
below return `m` odd, or `0 * 2 ^ 0` for zero, so that equal values are equal terms. -/
structure Binary64 where
  m : Int
  e : Int
  deriving DecidableEq

namespace Binary64

/-- Number of binary digits of `a`, computed with `fuel` halvings at most. -/
def bitLength : Nat → Nat → Nat
  | 0, _ => 0
  | fuel + 1, a => if a = 0 then 0 else bitLength fuel (a / 2) + 1

/-- The pair `(a, e)` with the factors 2 of `a` moved into the exponent, with `fuel`
halvings at most. -/
def stripZeros : Nat → Nat → Int → Nat × Int
  | 0, a, e => (a, e)
  | fuel + 1, a, e => if a ≠ 0 ∧ a % 2 = 0 then stripZeros fuel (a / 2) (e + 1) else (a, e)

/-- The binary64 value nearest to the exact value `m * 2 ^ e`: the significand is cut to 53
binary digits, rounding to nearest, a tie going to the even significand. -/
def round (m : Int) (e : Int) : Binary64 :=
  let a := m.natAbs
  let len := bitLength a a
  let s := len - 53
  let q := a / 2 ^ s
  let r := a % 2 ^ s
  let half := 2 ^ (s - 1)
  let q' := if len ≤ 53 then a else if r > half ∨ (r = half ∧ q % 2 = 1) then q + 1 else q
  let c := stripZeros q' q' (e + s)
  if c.1 = 0 then ⟨0, 0⟩ else ⟨(if m < 0 then -(c.1 : Int) else (c.1 : Int)), c.2⟩

/-- `x * y` on `double`: the exact product, rounded. -/
def mul (x y : Binary64) : Binary64 :=
  round (x.m * y.m) (x.e + y.e)

/-- `x + y` on `double`: the exact sum, rounded. -/
def add (x y : Binary64) : Binary64 :=
  let e := if x.e ≤ y.e then x.e else y.e
  round (x.m * 2 ^ (x.e - e).toNat + y.m * 2 ^ (y.e - e).toNat) e

instance : Mul Binary64 := ⟨mul⟩

instance : Add Binary64 := ⟨add⟩

instance : Zero Binary64 := ⟨⟨0, 0⟩⟩

/-- The rational number a binary64 value stands for. -/
def toRat (x : Binary64) : ℚ :=
  x.m * (2 : ℚ) ^ x.e

end Binary64

/-! ## `task01/src/main.cpp` -/

namespace Task01

variable {α : Type} [Field α]

/-- The data members of `class TemperatureModel` (main.cpp, lines 16-24). -/
structure TemperatureModel (α : Type) where
  a : α
  b : α
  c : α
  d : α
  roomTemp : α
  initialTemp : α
  linear_temps : List α
  nonlinear_temps : List α
  control_signals : List α

/-- `BASE_SIGNAL` (main.cpp, line 27). -/
def BASE_SIGNAL : α := 10.0

/-- `AMPLITUDE` (main.cpp, line 28). -/
def AMPLITUDE : α := 5.0

/-- `FREQUENCY` (main.cpp, line 29). -/
def FREQUENCY : α := 0.1

/-- The constructor (main.cpp, lines 41-45): the three vectors start empty. -/
def TemperatureModel.new (a_val b_val c_val d_val room_temp init_temp : α) : TemperatureModel α :=
  { a := a_val, b := b_val, c := c_val, d := d_val
    roomTemp := room_temp, initialTemp := init_temp
    linear_temps := [], nonlinear_temps := [], control_signals := [] }

/-- `generateControlSignal` (main.cpp, lines 52-54); it reads no data member. -/
def generateControlSignal (sin : α → α) (step : Int) : α :=
  BASE_SIGNAL + AMPLITUDE * sin (FREQUENCY * (step : α))

/-- One iteration of the loop of `calculateLinear` (main.cpp, lines 70-73), on the pair of
the local `y_current` and the object. -/
def calculateLinear.body (sin : α → α) (s : α × TemperatureModel α) (tau : Nat) :
    α × TemperatureModel α :=
  let u := generateControlSignal sin (tau : Int)
  let y_current := s.2.a * s.1 + s.2.b * u
  (y_current,
    { s.2 with
      control_signals := s.2.control_signals ++ [u]
      linear_temps := s.2.linear_temps ++ [y_current] })

/-- `calculateLinear` (main.cpp, lines 62-75). -/
def calculateLinear (sin : α → α) (m : TemperatureModel α) (steps : Int) : TemperatureModel α :=
  let m := { m with linear_temps := [], control_signals := [] }
  let y_current := m.initialTemp
  let m := { m with linear_temps := m.linear_temps ++ [y_current] }
  ((List.range steps.toNat).foldl (calculateLinear.body sin) (y_current, m)).2

/-- The locals of `calculateNonlinear` that live across iterations, and the object. -/
structure NonlinearState (α : Type) where
  y_prev2 : α
  y_prev1 : α
  u_prev : α
  self : TemperatureModel α

/-- One iteration of the loop of `calculateNonlinear` (main.cpp, lines 93-103). -/
def calculateNonlinear.body (sin : α → α) (s : NonlinearState α) (tau : Nat) :
    NonlinearState α :=
  let u_current :=
    if h : tau < s.self.control_signals.length then
      s.self.control_signals[tau]
    else
      generateControlSignal sin (tau : Int)
  let y_current := s.self.a * s.y_prev1 - s.self.b * s.y_prev2 ^ 2 +
    s.self.c * u_current + s.self.d * sin s.u_prev
  { y_prev2 := s.y_prev1
    y_prev1 := y_current
    u_prev := u_current
    self := { s.self with nonlinear_temps := s.self.nonlinear_temps ++ [y_current] } }

/-- `calculateNonlinear` (main.cpp, lines 83-105). -/
def calculateNonlinear (sin : α → α) (m : TemperatureModel α) (steps : Int) :
    TemperatureModel α :=
  let m := { m with nonlinear_temps := [] }
  let y_prev2 := m.initialTemp
  let y_prev1 := m.initialTemp
  let m := { m with nonlinear_temps := m.nonlinear_temps ++ [y_prev1] }
  let u_prev : α := 0.0
  ((List.range steps.toNat).foldl (calculateNonlinear.body sin)
    { y_prev2 := y_prev2, y_prev1 := y_prev1, u_prev := u_prev, self := m }).self

/-- A line of text output.  `text` is a literal line; `titles` is the line of column titles
that `printResults` pads with `setw`; `row` is a line of the four values streamed in one
iteration of the loops of `printResults` and `saveToFile`, in the order step index,
control value, linear state, nonlinear state.  The values are kept as numbers: how a
`double` is formatted (`setprecision`, `setw`, the `,` separators) is not embedded. -/
inductive Line (α : Type) where
  | text (s : String)
  | titles (cols : List String)
  | row (i : Nat) (u linear nonlinear : α)

/-- The values streamed by iteration `i` of the loop of `printResults` (main.cpp, lines
123-130) and of `saveToFile` (lines 149-153): `i`,
`(i < control_signals.size()) ? control_signals[i] : 0.0`, `linear_temps[i]`
(bounds-checked here), `(i < nonlinear_temps.size()) ? nonlinear_temps[i] : 0.0`. -/
def rowAt (m : TemperatureModel α) (i : Nat) : Option (Line α) := do
  let linear ← m.linear_temps[i]?
  some (Line.row i
    (if h : i < m.control_signals.length then m.control_signals[i] else 0.0)
    linear
    (if h : i < m.nonlinear_temps.length then m.nonlinear_temps[i] else 0.0))

/-- `printResults` (main.cpp, lines 112-132): the lines written to `cout`. -/
def printResults (m : TemperatureModel α) : Option (List (Line α)) := do
  let rows ← (List.range m.linear_temps.length).mapM (rowAt m)
  some ([Line.text "=============================================",
         Line.text "Результаты моделирования объекта управления",
         Line.text "=============================================",
         Line.titles ["Шаг", "u(τ)", "Линейная", "Нелинейная"],
         Line.text "---------------------------------------------"] ++ rows)

/-- What a call of `saveToFile` leaves behind: the lines of the file (`none` when the file
was not written) and the text sent to `cerr` and to `cout`. -/
structure SaveOutcome (α : Type) where
  file : Option (List (Line α))
  cerr : List String
  cout : List String

/-- `saveToFile` (main.cpp, lines 140-158).  `opens` tells whether `std::ofstream
outfile(filename)` could open the file; writes to an open file are taken to succeed. -/
def saveToFile (m : TemperatureModel α) (filename : String) (opens : Bool) :
    Option (SaveOutcome α) :=
  if !opens then
    some { file := none, cerr := ["Ошибка открытия файла для записи!"], cout := [] }
  else do
    let rows ← (List.range m.linear_temps.length).mapM (rowAt m)
    some { file := some (Line.text "Step,u(tau),Linear_Model,Nonlinear_Model" :: rows)
           cerr := []
           cout := ["\nРезультаты сохранены в файл: " ++ filename] }

end Task01

/-! ## Properties of `task_02` -/

namespace Task02

variable {α : Type}

/-- An in-range store succeeds and is `List.set`. -/
theorem assign_of_lt {y : List α} {i : Nat} (v : α) (h : i < y.length) :
    assign y i v = some (y.set i v) := by
  simp [assign, h]

/-- Shape shared by the two simulation loops: iteration `t` reads `y[t]` and stores `f y[t]`
in `y[t + 1]`.  Run for `K` iterations on a vector with more than `K` elements, the loop
succeeds, keeps the length and element 0, and leaves `y[t + 1] = f y[t]` for every `t < K`. -/
theorem loop_spec (f : α → α) (body : List α → Nat → Option (List α))
    (hbody : ∀ y t, body y t = (y[t]?).bind (fun y_t => assign y (t + 1) (f y_t)))
    (K : Nat) (y : List α) (hK : K < y.length) :
    ∃ r, (List.range K).foldlM body y = some r ∧ r.length = y.length ∧ r[0]? = y[0]? ∧
      ∀ t, t < K → ∃ p, r[t]? = some p ∧ r[t + 1]? = some (f p) := by
  induction K with
  | zero => exact ⟨y, by simp⟩
  | succ K ih =>
    obtain ⟨r, hr, hlen, h0, hrec⟩ := ih (by omega)
    have hKr : K < r.length := by omega
    have hK1 : K + 1 < r.length := by omega
    refine ⟨r.set (K + 1) (f r[K]), ?_, by simpa using hlen, ?_, ?_⟩
    · rw [List.range_succ, List.foldlM_append, hr]
      simp [hbody, List.getElem?_eq_getElem hKr, assign_of_lt _ hK1]
    · rw [List.getElem?_set_ne (by omega)]
      exact h0
    · intro t ht
      rcases Nat.lt_succ_iff_lt_or_eq.mp ht with hlt | rfl
      · obtain ⟨p, hp, hp1⟩ := hrec t hlt
        refine ⟨p, ?_, ?_⟩
        · rw [List.getElem?_set_ne (by omega)]
          exact hp
        · rw [List.getElem?_set_ne (by omega)]
          exact hp1
      · refine ⟨r[t], ?_, ?_⟩
        · rw [List.getElem?_set_ne (by omega)]
          exact List.getElem?_eq_getElem hKr
        · simp [List.getElem?_set_self, hK1]

/-- A non-negative count yields the zero-filled vector of that many elements. -/
theorem vectorOfSize_of_nonneg [Zero α] {k : Int} (h : 0 ≤ k) :
    vectorOfSize k = some (List.replicate k.toNat (0 : α)) := by
  simp [vectorOfSize, h]

/-- Below `INT_MAX` the `int` sum `n + 1` is the integer sum. -/
theorem intAdd_one_of_lt {n : Int} (hn : 0 ≤ n) (hmax : n < INT_MAX) :
    intAdd n 1 = some (n + 1) := by
  unfold INT_MAX at hmax
  have h : INT_MIN ≤ n + 1 ∧ n + 1 ≤ INT_MAX := by
    unfold INT_MIN INT_MAX
    omega
  simp only [intAdd, if_pos h]

/-- From `INT_MAX` on the `int` sum `n + 1` overflows. -/
theorem intAdd_one_of_ge {n : Int} (hmax : INT_MAX ≤ n) : intAdd n 1 = none := by
  unfold INT_MAX at hmax
  have h : ¬ (INT_MIN ≤ n + 1 ∧ n + 1 ≤ INT_MAX) := by
    unfold INT_MIN INT_MAX
    omega
  simp only [intAdd, if_neg h]

/-- Run of a simulation of shape `y(n + 1); y[0] = y0; for t < n: y[t + 1] = f y[t]` for
`0 ≤ n < INT_MAX`: it returns a vector of `n + 1` elements that starts with `y0` and
satisfies `y[t + 1] = f y[t]` for every `t < n`. -/
theorem simulate_spec [Zero α] (f : α → α) (body : List α → Nat → Option (List α))
    (hbody : ∀ y t, body y t = (y[t]?).bind (fun y_t => assign y (t + 1) (f y_t)))
    (n : Int) (hn : 0 ≤ n) (hmax : n < INT_MAX) (y0 : α) :
    ∃ r, ((intAdd n 1).bind fun size => (vectorOfSize size).bind fun y =>
            (assign y 0 y0).bind fun y => (List.range n.toNat).foldlM body y) = some r ∧
      r.length = n.toNat + 1 ∧ r[0]? = some y0 ∧
      ∀ t, t < n.toNat → ∃ p, r[t]? = some p ∧ r[t + 1]? = some (f p) := by
  have hsz : (n + 1).toNat = n.toNat + 1 := by omega
  have hlen : ((List.replicate (n.toNat + 1) (0 : α)).set 0 y0).length = n.toNat + 1 := by simp
  obtain ⟨r, hr, hrl, hr0, hrec⟩ := loop_spec f body hbody n.toNat
    ((List.replicate (n.toNat + 1) (0 : α)).set 0 y0) (by omega)
  refine ⟨r, ?_, by omega, ?_, hrec⟩
  · rw [intAdd_one_of_lt hn hmax]
    simp only [Option.some_bind]
    rw [vectorOfSize_of_nonneg (by omega), hsz]
    simp only [Option.some_bind]
    rw [assign_of_lt y0 (by simp)]
    simpa using hr
  · rw [hr0]
    simp

/-- Specification of `simulateLinear` for `0 ≤ n < INT_MAX`. -/
theorem simulateLinear_spec [Zero α] [Add α] [Mul α] (n : Int) (hn : 0 ≤ n)
    (hmax : n < INT_MAX) (a b y0 u0 : α) :
    ∃ r, simulateLinear n a b y0 u0 = some r ∧
      r.length = n.toNat + 1 ∧ r[0]? = some y0 ∧
      ∀ t, t < n.toNat → ∃ p, r[t]? = some p ∧ r[t + 1]? = some (linearModel a b p u0) :=
  simulate_spec (fun y_t => linearModel a b y_t u0) (simulateLinear.body a b u0)
    (fun _ _ => rfl) n hn hmax y0

/-- Specification of `simulateNonlinear` for `0 ≤ n < INT_MAX`. -/
theorem simulateNonlinear_spec [Zero α] [Add α] [Sub α] [Mul α] (sin : α → α) (n : Int)
    (hn : 0 ≤ n) (hmax : n < INT_MAX) (a b_nl c d y0 u0 : α) :
    ∃ r, simulateNonlinear sin n a b_nl c d y0 u0 = some r ∧
      r.length = n.toNat + 1 ∧ r[0]? = some y0 ∧
      ∀ t, t < n.toNat →
        ∃ p, r[t]? = some p ∧ r[t + 1]? = some (nonlinearModel sin a b_nl c d p u0 u0) :=
  simulate_spec (fun y_t => nonlinearModel sin a b_nl c d y_t u0 u0)
    (simulateNonlinear.body sin a b_nl c d u0) (fun _ _ => rfl) n hn hmax y0

/-- At `n ≥ INT_MAX` the size `n + 1` overflows and `simulateLinear` returns no vector. -/
theorem simulateLinear_of_overflow [Zero α] [Add α] [Mul α] (n : Int) (hmax : INT_MAX ≤ n)
    (a b y0 u0 : α) : simulateLinear n a b y0 u0 = none := by
  simp only [simulateLinear, intAdd_one_of_ge hmax, Option.bind_eq_bind, Option.none_bind]

/-- At `n ≥ INT_MAX` the size `n + 1` overflows and `simulateNonlinear` returns no vector. -/
theorem simulateNonlinear_of_overflow [Zero α] [Add α] [Sub α] [Mul α] (sin : α → α)
    (n : Int) (hmax : INT_MAX ≤ n) (a b_nl c d y0 u0 : α) :
    simulateNonlinear sin n a b_nl c d y0 u0 = none := by
  simp only [simulateNonlinear, intAdd_one_of_ge hmax, Option.bind_eq_bind, Option.none_bind]

/-- The calls of a concatenated trace. -/
theorem calls_append (l₁ l₂ : List (Event α)) : calls (l₁ ++ l₂) = calls l₁ ++ calls l₂ := by
  induction l₁ with
  | nil => rfl
  | cons e l ih => cases e <;> simp [calls, ih]

/-- The printing loop of `main` on a vector of more than `n` elements stays in range and
appends one `t=<t>  y=<y[t]>` line per `t = 1..n`, in order, and nothing else. -/
theorem printTrajectory_spec (trace : List (Event α)) (n : Int) (y : List α)
    (h : n.toNat < y.length) :
    ∃ out, printTrajectory trace n y = some (trace ++ out) ∧ out.length = n.toNat ∧
      calls out = [] ∧
      ∀ t, 1 ≤ t → t ≤ n.toNat →
        ∃ v, y[t]? = some v ∧ out[t - 1]? = some (Event.coutValue t v) := by
  unfold printTrajectory
  generalize n.toNat = K at h
  induction K with
  | zero => exact ⟨[], by simp, rfl, rfl, fun t h1 h0 => absurd h1 (by omega)⟩
  | succ K ih =>
    obtain ⟨out, hout, hlen, hcalls, hrec⟩ := ih (by omega)
    have hK : 1 + K < y.length := by omega
    refine ⟨out ++ [Event.coutValue (1 + K) y[1 + K]], ?_, by simp [hlen], ?_, ?_⟩
    · rw [List.range'_1_concat, List.foldlM_append, hout]
      simp [List.getElem?_eq_getElem hK]
    · rw [calls_append, hcalls]
      rfl
    · intro t h1 ht
      rcases Nat.lt_succ_iff_lt_or_eq.mp (Nat.lt_succ_of_le ht) with hlt | rfl
      · obtain ⟨v, hv, hv'⟩ := hrec t h1 (by omega)
        refine ⟨v, hv, ?_⟩
        rw [List.getElem?_append_left (by omega)]
        exact hv'
      · refine ⟨y[K + 1], List.getElem?_eq_getElem (by omega), ?_⟩
        rw [List.getElem?_append_right (by omega)]
        simp [hlen, Nat.add_comm]

/-- Outside the accepted range `main` writes the prompt and the error message, calls
nothing and returns 1. -/
theorem main_of_invalid [Field α] (sin : α → α) (n : Int) (h : n ≤ 0 ∨ n > 1000000) :
    main sin n = some (1,
      [Event.cout "Введите количество шагов моделирования: ",
       Event.cerr "Ошибка: n должно быть положительным и не превышать 1,000,000.\n"]) := by
  simp only [main, if_pos h, List.singleton_append]

/-- Inside the accepted range `main` runs both simulations with the constants of lines
18-25, writes every `y[t]`, `t = 1..n`, of each result, reports no error and returns 0. -/
theorem main_of_valid [Field α] (sin : α → α) (n : Int) (h1 : 1 ≤ n) (h2 : n ≤ 1000000) :
    ∃ y_linear y_nonlinear outLinear outNonlinear,
      simulateLinear n (0.8 : α) 0.1 20.0 5.0 = some y_linear ∧
      simulateNonlinear sin n (0.8 : α) 0.12 0.05 0.02 20.0 5.0 = some y_nonlinear ∧
      main sin n = some (0,
        [Event.cout "Введите количество шагов моделирования: ",
         Event.call (Call.simulateLinear n 0.8 0.1 20.0 5.0),
         Event.call (Call.simulateNonlinear n 0.8 0.12 0.05 0.02 20.0 5.0),
         Event.cout "Результаты моделирования:\n",
         Event.cout "\n--- Линейная модель ---\n"] ++ outLinear ++
        [Event.cout "\n--- Нелинейная модель ---\n"] ++ outNonlinear) ∧
      calls outLinear = [] ∧ calls outNonlinear = [] ∧
      (∀ t, 1 ≤ t → t ≤ n.toNat →
        ∃ v, y_linear[t]? = some v ∧ outLinear[t - 1]? = some (Event.coutValue t v)) ∧
      (∀ t, 1 ≤ t → t ≤ n.toNat →
        ∃ v, y_nonlinear[t]? = some v ∧
          outNonlinear[t - 1]? = some (Event.coutValue t v)) := by
  have hmax : n < INT_MAX := by unfold INT_MAX; omega
  obtain ⟨yl, hyl, hll, -, -⟩ := simulateLinear_spec n (by omega) hmax (0.8 : α) 0.1 20.0 5.0
  obtain ⟨yn, hyn, hln, -, -⟩ :=
    simulateNonlinear_spec sin n (by omega) hmax (0.8 : α) 0.12 0.05 0.02 20.0 5.0
  obtain ⟨outL, hpl, -, hcl, hrl⟩ := printTrajectory_spec
    ([Event.cout "Введите количество шагов моделирования: ",
      Event.call (Call.simulateLinear n (0.8 : α) 0.1 20.0 5.0),
      Event.call (Call.simulateNonlinear n 0.8 0.12 0.05 0.02 20.0 5.0),
      Event.cout "Результаты моделирования:\n",
      Event.cout "\n--- Линейная модель ---\n"]) n yl (by omega)
  obtain ⟨outN, hpn, -, hcn, hrn⟩ := printTrajectory_spec
    ([Event.cout "Введите количество шагов моделирования: ",
      Event.call (Call.simulateLinear n (0.8 : α) 0.1 20.0 5.0),
      Event.call (Call.simulateNonlinear n 0.8 0.12 0.05 0.02 20.0 5.0),
      Event.cout "Результаты моделирования:\n",
      Event.cout "\n--- Линейная модель ---\n"] ++ outL ++
      [Event.cout "\n--- Нелинейная модель ---\n"]) n yn (by omega)
  have hguard : ¬ (n ≤ 0 ∨ n > 1000000) := by omega
  refine ⟨yl, yn, outL, outN, hyl, hyn, ?_, hcl, hcn, hrl, hrn⟩
  simp only [main, if_neg hguard, callSimulateLinear, callSimulateNonlinear, hyl, hyn,
    Option.bind_eq_bind, Option.some_bind, List.singleton_append, List.cons_append,
    List.nil_append]
  simp only [List.cons_append, List.nil_append] at hpl hpn
  rw [hpl]
  simp only [Option.some_bind, List.append_assoc, List.cons_append, List.nil_append]
  simp only [List.append_assoc, List.cons_append, List.nil_append] at hpn
  rw [hpn]
  simp only [Option.some_bind, List.append_assoc, List.cons_append, List.nil_append]

end Task02

/-! ## Properties of `task01` -/

namespace Task01

variable {α : Type}

/-- Loop invariant of `calculateLinear`: started with `linear_temps = [y]`, no control
signal and `y_current = y`, after `K` iterations only the two vectors have changed,
`linear_temps` has `K + 1` entries, begins with `y` and ends with `y_current`,
`control_signals` has `K` entries, and entry `k < K` of either vector is the value the
loop body computes at `tau = k`. -/
theorem calculateLinear_loop [Field α] (sin : α → α) (m0 : TemperatureModel α) (y : α)
    (hl : m0.linear_temps = [y]) (hc : m0.control_signals = []) (K : Nat) :
    ∃ yc lt cs,
      (List.range K).foldl (calculateLinear.body sin) (y, m0) =
        (yc, { m0 with linear_temps := lt, control_signals := cs }) ∧
      lt.length = K + 1 ∧ cs.length = K ∧ lt[0]? = some y ∧ lt[K]? = some yc ∧
      ∀ k, k < K → cs[k]? = some (generateControlSignal sin (k : Int)) ∧
        ∃ p, lt[k]? = some p ∧
          lt[k + 1]? = some (m0.a * p + m0.b * generateControlSignal sin (k : Int)) := by
  induction K with
  | zero =>
    refine ⟨y, [y], [], ?_, by simp⟩
    cases m0
    simp only at hl hc
    simp [hl, hc]
  | succ K ih =>
    obtain ⟨yc, lt, cs, hfold, hlt, hcs, h0, hK, hrec⟩ := ih
    refine ⟨m0.a * yc + m0.b * generateControlSignal sin (K : Int),
      lt ++ [m0.a * yc + m0.b * generateControlSignal sin (K : Int)],
      cs ++ [generateControlSignal sin (K : Int)], ?_, by simp [hlt], by simp [hcs], ?_, ?_, ?_⟩
    · rw [List.range_succ, List.foldl_append, hfold]
      simp [calculateLinear.body]
    · rw [List.getElem?_append_left (by omega)]
      exact h0
    · rw [List.getElem?_append_right (by omega)]
      simp [hlt]
    · intro k hk
      rcases Nat.lt_succ_iff_lt_or_eq.mp hk with hlt' | rfl
      · obtain ⟨hu, p, hp, hp1⟩ := hrec k hlt'
        refine ⟨?_, p, ?_, ?_⟩
        · rw [List.getElem?_append_left (by omega)]
          exact hu
        · rw [List.getElem?_append_left (by omega)]
          exact hp
        · rw [List.getElem?_append_left (by omega)]
          exact hp1
      · refine ⟨?_, yc, ?_, ?_⟩
        · rw [List.getElem?_append_right (by omega)]
          simp [hcs]
        · rw [List.getElem?_append_left (by omega)]
          exact hK
        · rw [List.getElem?_append_right (by omega)]
          simp [hlt]

/-- Specification of `calculateLinear`: whatever the object held before, afterwards the
coefficients, `initialTemp` and `nonlinear_temps` are as before, `linear_temps` has
`steps.toNat + 1` entries starting with `initialTemp`, `control_signals` has `steps.toNat`
entries, and for every `k < steps.toNat`, `control_signals[k] = generateControlSignal(k)`
and `linear_temps[k + 1] = a * linear_temps[k] + b * control_signals[k]`. -/
theorem calculateLinear_spec [Field α] (sin : α → α) (m : TemperatureModel α) (steps : Int) :
    ∃ lt cs,
      calculateLinear sin m steps = { m with linear_temps := lt, control_signals := cs } ∧
      lt.length = steps.toNat + 1 ∧ cs.length = steps.toNat ∧ lt[0]? = some m.initialTemp ∧
      ∀ k, k < steps.toNat → cs[k]? = some (generateControlSignal sin (k : Int)) ∧
        ∃ p, lt[k]? = some p ∧
          lt[k + 1]? = some (m.a * p + m.b * generateControlSignal sin (k : Int)) := by
  obtain ⟨yc, lt, cs, hfold, hlt, hcs, h0, -, hrec⟩ :=
    calculateLinear_loop sin
      { m with linear_temps := [m.initialTemp], control_signals := [] } m.initialTemp
      rfl rfl steps.toNat
  refine ⟨lt, cs, ?_, hlt, hcs, h0, hrec⟩
  simp only [calculateLinear, List.nil_append]
  rw [hfold]

/-- Loop invariant of `calculateNonlinear`: started with `nonlinear_temps = [i]`, both
trailing states equal to `i` and `u_prev = u0`, after `K` iterations, `K` not beyond the
recorded control signals, only `nonlinear_temps` has changed; it has `K + 1` entries, begins
with `i` and ends with `y_prev1`; `y_prev2` and `u_prev` are the entries before the last of
`nonlinear_temps` and of the control signals used (or still `i` and `u0` when `K = 0`); and
every entry past the first is the value of the update formula on the entries before it. -/
theorem calculateNonlinear_loop [Field α] (sin : α → α) (m0 : TemperatureModel α) (i u0 : α)
    (hn : m0.nonlinear_temps = [i]) (K : Nat) (hK : K ≤ m0.control_signals.length) :
    ∃ p2 p1 up nt,
      (List.range K).foldl (calculateNonlinear.body sin)
          { y_prev2 := i, y_prev1 := i, u_prev := u0, self := m0 } =
        { y_prev2 := p2, y_prev1 := p1, u_prev := up,
          self := { m0 with nonlinear_temps := nt } } ∧
      nt.length = K + 1 ∧ nt[0]? = some i ∧ nt[K]? = some p1 ∧
      (K = 0 → p2 = i ∧ up = u0) ∧
      (∀ j, K = j + 1 → nt[j]? = some p2 ∧ m0.control_signals[j]? = some up) ∧
      ∀ tau, tau < K → ∃ y yPrev u uPrev,
        nt[tau]? = some y ∧
        (if tau = 0 then yPrev = i else nt[tau - 1]? = some yPrev) ∧
        m0.control_signals[tau]? = some u ∧
        (if tau = 0 then uPrev = u0 else m0.control_signals[tau - 1]? = some uPrev) ∧
        nt[tau + 1]? = some (m0.a * y - m0.b * yPrev ^ 2 + m0.c * u + m0.d * sin uPrev) := by
  induction K with
  | zero =>
    refine ⟨i, i, u0, [i], ?_, by simp⟩
    cases m0
    simp only at hn
    simp [hn]
  | succ K ih =>
    obtain ⟨p2, p1, up, nt, hfold, hlen, h0, hlast, hzero, hsucc, hrec⟩ := ih (by omega)
    have hKc : K < m0.control_signals.length := by omega
    refine ⟨p1, m0.a * p1 - m0.b * p2 ^ 2 + m0.c * m0.control_signals[K] + m0.d * sin up,
      m0.control_signals[K],
      nt ++ [m0.a * p1 - m0.b * p2 ^ 2 + m0.c * m0.control_signals[K] + m0.d * sin up],
      ?_, by simp [hlen], ?_, ?_, by omega, ?_, ?_⟩
    · rw [List.range_succ, List.foldl_append, hfold]
      simp [calculateNonlinear.body, hKc]
    · rw [List.getElem?_append_left (by omega)]
      exact h0
    · rw [List.getElem?_append_right (by omega)]
      simp [hlen]
    · intro j hj
      obtain rfl : j = K := by omega
      refine ⟨?_, List.getElem?_eq_getElem hKc⟩
      rw [List.getElem?_append_left (by omega)]
      exact hlast
    · intro tau htau
      rcases Nat.lt_succ_iff_lt_or_eq.mp htau with hlt | rfl
      · obtain ⟨y, yPrev, u, uPrev, hy, hyP, hu, huP, hstep⟩ := hrec tau hlt
        refine ⟨y, yPrev, u, uPrev, ?_, ?_, hu, huP, ?_⟩
        · rw [List.getElem?_append_left (by omega)]
          exact hy
        · by_cases h : tau = 0
          · simpa [h] using hyP
          · rw [if_neg h] at hyP ⊢
            rw [List.getElem?_append_left (by omega)]
            exact hyP
        · rw [List.getElem?_append_left (by omega)]
          exact hstep
      · refine ⟨p1, p2, m0.control_signals[tau], up, ?_, ?_, List.getElem?_eq_getElem hKc,
          ?_, ?_⟩
        · rw [List.getElem?_append_left (by omega)]
          exact hlast
        · by_cases h : tau = 0
          · rw [if_pos h]
            exact (hzero h).1
          · rw [if_neg h, List.getElem?_append_left (by omega)]
            exact (hsucc (tau - 1) (by omega)).1
        · by_cases h : tau = 0
          · rw [if_pos h]
            exact (hzero h).2
          · rw [if_neg h]
            exact (hsucc (tau - 1) (by omega)).2
        · rw [List.getElem?_append_right (by omega)]
          simp [hlen]

/-- Specification of `calculateNonlinear` on an object whose `control_signals` cover all
`steps.toNat` steps: only `nonlinear_temps` changes; it has `steps.toNat + 1` entries,
starts with `initialTemp`, and entry `tau + 1` is the update formula on entry `tau`, on the
entry before it (`initialTemp` at `tau = 0`), on `control_signals[tau]` and on the control
value before it (`0` at `tau = 0`). -/
theorem calculateNonlinear_spec [Field α] (sin : α → α) (m : TemperatureModel α) (steps : Int)
    (hcs : steps.toNat ≤ m.control_signals.length) :
    ∃ nt,
      calculateNonlinear sin m steps = { m with nonlinear_temps := nt } ∧
      nt.length = steps.toNat + 1 ∧ nt[0]? = some m.initialTemp ∧
      ∀ tau, tau < steps.toNat → ∃ y yPrev u uPrev,
        nt[tau]? = some y ∧
        (if tau = 0 then yPrev = m.initialTemp else nt[tau - 1]? = some yPrev) ∧
        m.control_signals[tau]? = some u ∧
        (if tau = 0 then uPrev = 0 else m.control_signals[tau - 1]? = some uPrev) ∧
        nt[tau + 1]? = some (m.a * y - m.b * yPrev ^ 2 + m.c * u + m.d * sin uPrev) := by
  obtain ⟨p2, p1, up, nt, hfold, hlen, h0, -, -, -, hrec⟩ :=
    calculateNonlinear_loop sin { m with nonlinear_temps := [m.initialTemp] } m.initialTemp 0
      rfl steps.toNat hcs
  refine ⟨nt, ?_, hlen, h0, hrec⟩
  simp only [calculateNonlinear, List.nil_append]
  have h00 : (0.0 : α) = 0 := by norm_num
  rw [h00, hfold]

/-- The loop of `calculateNonlinear` on an arbitrary object only appends to
`nonlinear_temps`, one entry per iteration. -/
theorem calculateNonlinear_loop_append [Field α] (sin : α → α) (s0 : NonlinearState α)
    (K : Nat) :
    ∃ ext, ((List.range K).foldl (calculateNonlinear.body sin) s0).self =
        { s0.self with nonlinear_temps := s0.self.nonlinear_temps ++ ext } ∧
      ext.length = K := by
  induction K with
  | zero => exact ⟨[], by simp⟩
  | succ K ih =>
    obtain ⟨ext, hself, hlen⟩ := ih
    rw [List.range_succ, List.foldl_append]
    simp only [List.foldl_cons, List.foldl_nil]
    generalize (List.range K).foldl (calculateNonlinear.body sin) s0 = s at hself
    exact ⟨ext ++ [(calculateNonlinear.body sin s K).y_prev1],
      by simp [calculateNonlinear.body, hself], by simp [hlen]⟩

/-- A traversal in `Option` by a function that succeeds with `g x` on every element `x` of
the list is the plain map of `g`. -/
theorem mapM_option_eq_map {β γ : Type} (f : β → Option γ) (g : β → γ) (l : List β)
    (h : ∀ x, x ∈ l → f x = some (g x)) : l.mapM f = some (l.map g) := by
  induction l with
  | nil => rfl
  | cons x xs ih =>
    rw [List.mapM_cons, h x (by simp), ih (fun z hz => h z (by simp [hz]))]
    rfl

/-- The loop of `printResults` and `saveToFile` never leaves `linear_temps`: it produces one
row per entry of `linear_temps`, in order, and row `i` holds `i`, the control value or its
placeholder, `linear_temps[i]`, and the nonlinear state or its placeholder. -/
theorem rows_spec [Field α] (m : TemperatureModel α) :
    ∃ rows, (List.range m.linear_temps.length).mapM (rowAt m) = some rows ∧
      rows.length = m.linear_temps.length ∧
      ∀ i, i < m.linear_temps.length → ∃ linear, m.linear_temps[i]? = some linear ∧
        rows[i]? = some (Line.row i
          (if h : i < m.control_signals.length then m.control_signals[i] else 0.0)
          linear
          (if h : i < m.nonlinear_temps.length then m.nonlinear_temps[i] else 0.0)) := by
  refine ⟨(List.range m.linear_temps.length).map (fun i => Line.row i
      (if h : i < m.control_signals.length then m.control_signals[i] else 0.0)
      (m.linear_temps.getD i 0)
      (if h : i < m.nonlinear_temps.length then m.nonlinear_temps[i] else 0.0)), ?_, by simp, ?_⟩
  · apply mapM_option_eq_map
    intro i hi
    have hi' : i < m.linear_temps.length := List.mem_range.mp hi
    simp [rowAt, List.getElem?_eq_getElem hi', List.getD_eq_getElem?_getD]
  · intro i hi
    refine ⟨m.linear_temps[i], List.getElem?_eq_getElem hi, ?_⟩
    simp [List.getElem?_map, List.getElem?_range hi, List.getD_eq_getElem?_getD,
      List.getElem?_eq_getElem hi]

/-- `printResults` succeeds on every object: five heading lines, then the rows. -/
theorem printResults_spec [Field α] (m : TemperatureModel α) :
    ∃ rows out, printResults m = some out ∧ out.length = 5 + rows.length ∧
      (∀ i, out[5 + i]? = rows[i]?) ∧
      (List.range m.linear_temps.length).mapM (rowAt m) = some rows := by
  obtain ⟨rows, hrows, -, -⟩ := rows_spec m
  refine ⟨rows,
    [Line.text "=============================================",
     Line.text "Результаты моделирования объекта управления",
     Line.text "=============================================",
     Line.titles ["Шаг", "u(τ)", "Линейная", "Нелинейная"],
     Line.text "---------------------------------------------"] ++ rows, ?_, ?_, ?_, hrows⟩
  · simp only [printResults, hrows, Option.bind_eq_bind, Option.some_bind]
  · simp only [List.length_append, List.length_cons, List.length_nil]
  · intro i
    rw [List.getElem?_append_right (by simp)]
    simp

/-- `saveToFile` on a file that opens succeeds on every object: it writes the header line,
then the rows, reports nothing on `cerr` and announces the file on `cout`. -/
theorem saveToFile_spec [Field α] (m : TemperatureModel α) (filename : String) :
    ∃ rows, saveToFile m filename true =
        some { file := some (Line.text "Step,u(tau),Linear_Model,Nonlinear_Model" :: rows)
               cerr := []
               cout := ["\nРезультаты сохранены в файл: " ++ filename] } ∧
      (List.range m.linear_temps.length).mapM (rowAt m) = some rows := by
  obtain ⟨rows, hrows, -, -⟩ := rows_spec m
  refine ⟨rows, ?_, hrows⟩
  simp only [saveToFile, Bool.not_true, Bool.false_eq_true, if_false, hrows,
    Option.bind_eq_bind, Option.some_bind]

/-- The loop of `calculateLinear` reads only `y_current`, `a`, `b` and the two vectors it
appends to: two runs that agree on these produce the same two vectors. -/
theorem calculateLinear_fold_congr [Field α] (sin : α → α) (l : List Nat)
    (s s' : α × TemperatureModel α) (hy : s.1 = s'.1) (ha : s.2.a = s'.2.a)
    (hb : s.2.b = s'.2.b) (hlt : s.2.linear_temps = s'.2.linear_temps)
    (hcs : s.2.control_signals = s'.2.control_signals) :
    (l.foldl (calculateLinear.body sin) s).2.linear_temps =
        (l.foldl (calculateLinear.body sin) s').2.linear_temps ∧
      (l.foldl (calculateLinear.body sin) s).2.control_signals =
        (l.foldl (calculateLinear.body sin) s').2.control_signals := by
  induction l generalizing s s' with
  | nil => exact ⟨hlt, hcs⟩
  | cons tau l ih =>
    simp only [List.foldl_cons]
    apply ih
    · simp only [calculateLinear.body, hy, ha, hb]
    · exact ha
    · exact hb
    · simp only [calculateLinear.body, hy, ha, hb, hlt]
    · simp only [calculateLinear.body, hcs]

/-- When every recorded control signal is the generated one, iteration `tau` of the loop of
`calculateNonlinear` works with `generateControlSignal(tau)`, whether entry `tau` is
recorded or not. -/
theorem calculateNonlinear_body_of_recorded [Field α] (sin : α → α) (s : NonlinearState α)
    (tau : Nat)
    (hrec : ∀ k, k < s.self.control_signals.length →
      s.self.control_signals[k]? = some (generateControlSignal sin (k : Int))) :
    calculateNonlinear.body sin s tau =
      { y_prev2 := s.y_prev1
        y_prev1 := s.self.a * s.y_prev1 - s.self.b * s.y_prev2 ^ 2 +
          s.self.c * generateControlSignal sin (tau : Int) + s.self.d * sin s.u_prev
        u_prev := generateControlSignal sin (tau : Int)
        self := { s.self with
          nonlinear_temps := s.self.nonlinear_temps ++
            [s.self.a * s.y_prev1 - s.self.b * s.y_prev2 ^ 2 +
              s.self.c * generateControlSignal sin (tau : Int) + s.self.d * sin s.u_prev] } } := by
  by_cases h : tau < s.self.control_signals.length
  · have hval : s.self.control_signals[tau] = generateControlSignal sin (tau : Int) := by
      have := hrec tau h
      rw [List.getElem?_eq_getElem h] at this
      exact Option.some.inj this
    simp only [calculateNonlinear.body, dif_pos h, hval]
  · simp only [calculateNonlinear.body, dif_neg h]

/-- Two runs of the loop of `calculateNonlinear` that agree on the locals, the coefficients
and `nonlinear_temps`, each on an object whose recorded control signals are the generated
ones (however many are recorded), produce the same `nonlinear_temps`. -/
theorem calculateNonlinear_fold_congr [Field α] (sin : α → α) (l : List Nat)
    (s s' : NonlinearState α)
    (hrec : ∀ k, k < s.self.control_signals.length →
      s.self.control_signals[k]? = some (generateControlSignal sin (k : Int)))
    (hrec' : ∀ k, k < s'.self.control_signals.length →
      s'.self.control_signals[k]? = some (generateControlSignal sin (k : Int)))
    (h2 : s.y_prev2 = s'.y_prev2) (h1 : s.y_prev1 = s'.y_prev1) (hu : s.u_prev = s'.u_prev)
    (ha : s.self.a = s'.self.a) (hb : s.self.b = s'.self.b) (hc : s.self.c = s'.self.c)
    (hd : s.self.d = s'.self.d)
    (hnt : s.self.nonlinear_temps = s'.self.nonlinear_temps) :
    (l.foldl (calculateNonlinear.body sin) s).self.nonlinear_temps =
      (l.foldl (calculateNonlinear.body sin) s').self.nonlinear_temps := by
  induction l generalizing s s' with
  | nil => exact hnt
  | cons tau l ih =>
    simp only [List.foldl_cons]
    rw [calculateNonlinear_body_of_recorded sin s tau hrec,
      calculateNonlinear_body_of_recorded sin s' tau hrec']
    apply ih
    · exact hrec
    · exact hrec'
    · exact h1
    · simp only [h2, h1, hu, ha, hb, hc, hd]
    · rfl
    · exact ha
    · exact hb
    · exact hc
    · exact hd
    · simp only [h2, h1, hu, ha, hb, hc, hd, hnt]

/-- The rows of `printResults` and `saveToFile`, read by column: there are as many rows as
entries of `linear_temps`; row `i` starts with `i` and holds `linear_temps[i]`; its
nonlinear column is `nonlinear_temps[i]` when that entry exists; its control column is
`control_signals[i]` when that entry exists and `0.0` otherwise. -/
theorem rows_columns [Field α] (m : TemperatureModel α) (rows : List (Line α))
    (hrows : (List.range m.linear_temps.length).mapM (rowAt m) = some rows) :
    rows.length = m.linear_temps.length ∧
    (∀ i, i < m.linear_temps.length → i < m.nonlinear_temps.length →
      ∃ u linear nonlinear, rows[i]? = some (Line.row i u linear nonlinear) ∧
        m.linear_temps[i]? = some linear ∧ m.nonlinear_temps[i]? = some nonlinear) ∧
    (∀ i, i < m.linear_temps.length → i < m.control_signals.length →
      ∃ u linear nonlinear, rows[i]? = some (Line.row i u linear nonlinear) ∧
        m.control_signals[i]? = some u) ∧
    (∀ i, i < m.linear_temps.length → ¬ i < m.control_signals.length →
      ∃ linear nonlinear, rows[i]? = some (Line.row i 0.0 linear nonlinear)) := by
  obtain ⟨rows', hrows', hlen, hrow⟩ := rows_spec m
  obtain rfl : rows' = rows := Option.some.inj (hrows'.symm.trans hrows)
  refine ⟨hlen, ?_, ?_, ?_⟩
  · intro i hi hn
    obtain ⟨linear, hlin, hr⟩ := hrow i hi
    rw [dif_pos hn] at hr
    exact ⟨_, linear, m.nonlinear_temps[i], hr, hlin, List.getElem?_eq_getElem hn⟩
  · intro i hi hc
    obtain ⟨linear, -, hr⟩ := hrow i hi
    rw [dif_pos hc] at hr
    exact ⟨m.control_signals[i], linear, _, hr, List.getElem?_eq_getElem hc⟩
  · intro i hi hc
    obtain ⟨linear, -, hr⟩ := hrow i hi
    rw [dif_neg hc] at hr
    exact ⟨linear, _, hr⟩

/-- Every value of `generateControlSignal` lies in `[5, 15]`, when `sin` is the real sine. -/
theorem generateControlSignal_mem_range (k : Int) :
    (5 : ℝ) ≤ generateControlSignal Real.sin k ∧ generateControlSignal Real.sin k ≤ 15 := by
  have hlo := Real.neg_one_le_sin ((0.1 : ℝ) * (k : ℝ))
  have hhi := Real.sin_le_one ((0.1 : ℝ) * (k : ℝ))
  simp only [generateControlSignal, BASE_SIGNAL, AMPLITUDE, FREQUENCY]
  constructor <;> norm_num at hlo hhi ⊢ <;> linarith

end Task01

/-! ## The claims -/

open Task01 Task02

/-- C1: for all real `a`, `b`, `y_t`, `u_t`, `linearModel(a, b, y_t, u_t)` equals
`a*y_t + b*u_t`; it is `0` when all four arguments are `0`, and the formula holds for the
negative arguments of the test (`-0.5, -0.2, -10, -3`, giving `5.6`). -/
theorem linearModel_eq (a b y_t u_t : ℝ) :
    linearModel a b y_t u_t = a * y_t + b * u_t ∧
    linearModel (0 : ℝ) 0 0 0 = 0 ∧
    linearModel (-0.5 : ℝ) (-0.2) (-10.0) (-3.0) = 5.6 := by
  refine ⟨rfl, ?_, ?_⟩ <;> norm_num [linearModel]

/-- C2: for all real arguments, `nonlinearModel(a, b_nl, c, d, y_t, u_t, u_prev)` equals
`a*y_t - b_nl*y_t*y_t + c*u_t + d*sin(u_prev)`; it is `0` whenever `a = b_nl = c = d = 0`,
for every `y_t`, `u_t`, `u_prev`; and it is `0` for `a = 1, b_nl = 0, c = 0, d = 1` at
`y_t = u_t = u_prev = 0`. -/
theorem nonlinearModel_eq (a b_nl c d y_t u_t u_prev : ℝ) :
    nonlinearModel Real.sin a b_nl c d y_t u_t u_prev =
      a * y_t - b_nl * y_t * y_t + c * u_t + d * Real.sin u_prev ∧
    nonlinearModel Real.sin 0 0 0 0 y_t u_t u_prev = 0 ∧
    nonlinearModel Real.sin 1 0 0 1 0 0 0 = 0 := by
  refine ⟨rfl, ?_, ?_⟩ <;> simp [nonlinearModel]

/-- C3, as stated, fails in task_02: at `N = 2147483647` (`INT_MAX`), `t = 1`, the `int`
size `N + 1` overflows, `simulateLinear` returns no vector, so there is no `y[1]` that
could equal `linearModel(a, b, y[0], u0)`. -/
theorem linear_trajectory_step_fails_at_int_max :
    simulateLinear 2147483647 (0.5 : ℝ) 0.2 10.0 2.0 = none ∧
    ¬ ∃ (y : List ℝ) (p : ℝ), simulateLinear 2147483647 0.5 0.2 10.0 2.0 = some y ∧
      y[1 - 1]? = some p ∧ y[1]? = some (linearModel 0.5 0.2 p 2.0) := by
  have hnone : simulateLinear 2147483647 (0.5 : ℝ) 0.2 10.0 2.0 = none :=
    simulateLinear_of_overflow 2147483647 (by decide) _ _ _ _
  refine ⟨hnone, ?_⟩
  rintro ⟨y, p, hy, -, -⟩
  rw [hnone] at hy
  exact absurd hy (by simp)

/-- C3, amended: for every `N ≥ 1` and every `t` with `1 ≤ t ≤ N`, the linear trajectory
satisfies `y[t] = a*y[t-1] + b*u[t-1]`: in task_02, when moreover `N < 2147483647` (so that
the `int` size `N + 1` does not overflow), `simulateLinear(N,a,b,y0,u0)` returns a vector
`y` with `y[t] == linearModel(a, b, y[t-1], u0)`; in task01, after `calculateLinear(N)`,
`linear_temps[t] == a*linear_temps[t-1] + b*control_signals[t-1]`. -/
theorem linear_trajectory_step (N : Int) (hN : 1 ≤ N) (t : Nat) (ht : 1 ≤ t)
    (htN : (t : Int) ≤ N) (a b y0 u0 : ℝ) (m : TemperatureModel ℝ) :
    (N < 2147483647 → ∃ y p, simulateLinear N a b y0 u0 = some y ∧ y[t - 1]? = some p ∧
      y[t]? = some (linearModel a b p u0)) ∧
    (∃ p u, (calculateLinear Real.sin m N).linear_temps[t - 1]? = some p ∧
      (calculateLinear Real.sin m N).control_signals[t - 1]? = some u ∧
      (calculateLinear Real.sin m N).linear_temps[t]? = some (m.a * p + m.b * u)) := by
  obtain ⟨k, rfl⟩ : ∃ k, t = k + 1 := ⟨t - 1, by omega⟩
  have hk : k < N.toNat := by omega
  constructor
  · intro hmax
    obtain ⟨y, hy, -, -, hrec⟩ := simulateLinear_spec N (by omega) hmax a b y0 u0
    obtain ⟨p, hp, hp1⟩ := hrec k hk
    exact ⟨y, p, hy, by simpa using hp, hp1⟩
  · obtain ⟨lt, cs, hm, -, -, -, hrec⟩ := calculateLinear_spec Real.sin m N
    obtain ⟨hu, p, hp, hp1⟩ := hrec k hk
    rw [hm]
    exact ⟨p, _, by simpa using hp, by simpa using hu, hp1⟩

/-- Witness of `linear_trajectory_step`: `N = 3`, `t = 2`, the coefficients of the test
`SimulateLinearTest.MultipleSteps` and the object built in `main` of task01. -/
theorem linear_trajectory_step_witness :
    (∃ (y : List ℝ) (p : ℝ), simulateLinear 3 0.5 0.2 10.0 2.0 = some y ∧
      y[2 - 1]? = some p ∧ y[2]? = some (linearModel 0.5 0.2 p 2.0)) ∧
    (∃ (p u : ℝ),
      (calculateLinear Real.sin (TemperatureModel.new (0.98 : ℝ) 0.05 0.03 0.02 25.0 20.0)
        3).linear_temps[2 - 1]? = some p ∧
      (calculateLinear Real.sin (TemperatureModel.new (0.98 : ℝ) 0.05 0.03 0.02 25.0 20.0)
        3).control_signals[2 - 1]? = some u ∧
      (calculateLinear Real.sin (TemperatureModel.new (0.98 : ℝ) 0.05 0.03 0.02 25.0 20.0)
        3).linear_temps[2]? =
        some ((TemperatureModel.new (0.98 : ℝ) 0.05 0.03 0.02 25.0 20.0).a * p +
          (TemperatureModel.new (0.98 : ℝ) 0.05 0.03 0.02 25.0 20.0).b * u)) :=
  ⟨(linear_trajectory_step 3 (by decide) 2 (by decide) (by decide) 0.5 0.2 10.0 2.0
      (TemperatureModel.new 0.98 0.05 0.03 0.02 25.0 20.0)).1 (by decide),
   (linear_trajectory_step 3 (by decide) 2 (by decide) (by decide) 0.5 0.2 10.0 2.0
      (TemperatureModel.new 0.98 0.05 0.03 0.02 25.0 20.0)).2⟩

/-- C4, as stated, fails in task_02: at `N = 2147483647` (`INT_MAX`) the `int` size `N + 1`
overflows and neither `simulateLinear` nor `simulateNonlinear` returns a vector, so
there is no trajectory of `N + 1` elements. -/
theorem trajectory_length_fails_at_int_max :
    simulateLinear 2147483647 (0.8 : ℝ) 0.1 20.0 5.0 = none ∧
    simulateNonlinear Real.sin 2147483647 (0.8 : ℝ) 0.12 0.05 0.02 20.0 5.0 = none ∧
    ¬ ∃ y : List ℝ, simulateLinear 2147483647 0.8 0.1 20.0 5.0 = some y ∧
      (y.length : Int) = 2147483647 + 1 ∧ y[0]? = some (20.0 : ℝ) := by
  have hnone : simulateLinear 2147483647 (0.8 : ℝ) 0.1 20.0 5.0 = none :=
    simulateLinear_of_overflow 2147483647 (by decide) _ _ _ _
  refine ⟨hnone, simulateNonlinear_of_overflow Real.sin 2147483647 (by decide) _ _ _ _ _ _, ?_⟩
  rintro ⟨y, hy, -, -⟩
  rw [hnone] at hy
  exact absurd hy (by simp)

/-- C4, amended: for every `N ≥ 1` and all coefficients and initial values, the linear and
the nonlinear trajectory each have exactly `N + 1` elements and element 0 is the initial
state: in task_02, when moreover `N < 2147483647` (so that the `int` size `N + 1` does not
overflow), for `simulateLinear` and `simulateNonlinear` (initial state `y0`); in task01
for `linear_temps` after `calculateLinear(N)` and `nonlinear_temps` after
`calculateNonlinear(N)` (initial state `initialTemp`), whatever the object held before. -/
theorem trajectory_length_and_head (N : Int) (hN : 1 ≤ N) (a b b_nl c d y0 u0 : ℝ)
    (m : TemperatureModel ℝ) :
    (N < 2147483647 →
      (∃ y, simulateLinear N a b y0 u0 = some y ∧ (y.length : Int) = N + 1 ∧
        y[0]? = some y0) ∧
      (∃ y, simulateNonlinear Real.sin N a b_nl c d y0 u0 = some y ∧
        (y.length : Int) = N + 1 ∧ y[0]? = some y0)) ∧
    (((calculateLinear Real.sin m N).linear_temps.length : Int) = N + 1 ∧
      (calculateLinear Real.sin m N).linear_temps[0]? = some m.initialTemp) ∧
    (((calculateNonlinear Real.sin m N).nonlinear_temps.length : Int) = N + 1 ∧
      (calculateNonlinear Real.sin m N).nonlinear_temps[0]? = some m.initialTemp) := by
  refine ⟨fun hmax => ⟨?_, ?_⟩, ?_, ?_⟩
  · obtain ⟨y, hy, hlen, h0, -⟩ := simulateLinear_spec N (by omega) hmax a b y0 u0
    exact ⟨y, hy, by omega, h0⟩
  · obtain ⟨y, hy, hlen, h0, -⟩ :=
      simulateNonlinear_spec Real.sin N (by omega) hmax a b_nl c d y0 u0
    exact ⟨y, hy, by omega, h0⟩
  · obtain ⟨lt, cs, hm, hlen, -, h0, -⟩ := calculateLinear_spec Real.sin m N
    rw [hm]
    exact ⟨by simp only; omega, h0⟩
  · obtain ⟨ext, hself, hlen⟩ := calculateNonlinear_loop_append Real.sin
      { y_prev2 := m.initialTemp, y_prev1 := m.initialTemp, u_prev := 0.0,
        self := { m with nonlinear_temps := [m.initialTemp] } } N.toNat
    have hm : calculateNonlinear Real.sin m N =
        { m with nonlinear_temps := [m.initialTemp] ++ ext } := by
      simp only [calculateNonlinear, List.nil_append]
      exact hself
    rw [hm]
    refine ⟨?_, by simp⟩
    simp only [List.length_append, List.length_singleton]
    omega

/-- Witness of `trajectory_length_and_head`: `N = 3` with the constants of `main` of
task_02 and the object built in `main` of task01. -/
theorem trajectory_length_and_head_witness :
    ((∃ y : List ℝ, simulateLinear 3 0.8 0.1 20.0 5.0 = some y ∧ (y.length : Int) = 3 + 1 ∧
        y[0]? = some (20.0 : ℝ)) ∧
      (∃ y : List ℝ, simulateNonlinear Real.sin 3 0.8 0.12 0.05 0.02 20.0 5.0 = some y ∧
        (y.length : Int) = 3 + 1 ∧ y[0]? = some (20.0 : ℝ))) ∧
    (((calculateLinear Real.sin (TemperatureModel.new (0.98 : ℝ) 0.05 0.03 0.02 25.0 20.0)
        3).linear_temps.length : Int) = 3 + 1 ∧
      (calculateLinear Real.sin (TemperatureModel.new (0.98 : ℝ) 0.05 0.03 0.02 25.0 20.0)
        3).linear_temps[0]? =
        some (TemperatureModel.new (0.98 : ℝ) 0.05 0.03 0.02 25.0 20.0).initialTemp) ∧
    (((calculateNonlinear Real.sin
        (TemperatureModel.new (0.98 : ℝ) 0.05 0.03 0.02 25.0 20.0)
        3).nonlinear_temps.length : Int) = 3 + 1 ∧
      (calculateNonlinear Real.sin (TemperatureModel.new (0.98 : ℝ) 0.05 0.03 0.02 25.0 20.0)
        3).nonlinear_temps[0]? =
        some (TemperatureModel.new (0.98 : ℝ) 0.05 0.03 0.02 25.0 20.0).initialTemp) :=
  ⟨(trajectory_length_and_head 3 (by decide) 0.8 0.1 0.12 0.05 0.02 20.0 5.0
      (TemperatureModel.new 0.98 0.05 0.03 0.02 25.0 20.0)).1 (by decide),
   (trajectory_length_and_head 3 (by decide) 0.8 0.1 0.12 0.05 0.02 20.0 5.0
      (TemperatureModel.new 0.98 0.05 0.03 0.02 25.0 20.0)).2⟩

/-- C6, as stated, fails: at `N = 2147483647` (`INT_MAX`), `t = 1`, the `int` size `N + 1`
overflows, `simulateNonlinear` returns no vector, so there is no `y[1]` that could equal
`nonlinearModel(a, b_nl, c, d, y[0], u0, u0)`. -/
theorem simulateNonlinear_step_fails_at_int_max :
    simulateNonlinear Real.sin 2147483647 (0.8 : ℝ) 0.12 0.05 0.02 20.0 5.0 = none ∧
    ¬ ∃ (y : List ℝ) (p : ℝ),
      simulateNonlinear Real.sin 2147483647 0.8 0.12 0.05 0.02 20.0 5.0 = some y ∧
      y[1 - 1]? = some p ∧
      y[1]? = some (nonlinearModel Real.sin 0.8 0.12 0.05 0.02 p 5.0 5.0) := by
  have hnone : simulateNonlinear Real.sin 2147483647 (0.8 : ℝ) 0.12 0.05 0.02 20.0 5.0 = none :=
    simulateNonlinear_of_overflow Real.sin 2147483647 (by decide) _ _ _ _ _ _
  refine ⟨hnone, ?_⟩
  rintro ⟨y, p, hy, -, -⟩
  rw [hnone] at hy
  exact absurd hy (by simp)

/-- C6, amended: for every `N` with `1 ≤ N < 2147483647` (so that the `int` size `N + 1`
does not overflow) and every `t` with `1 ≤ t ≤ N`, the vector `y` returned by
`simulateNonlinear(N,a,b_nl,c,d,y0,u0)` satisfies
`y[t] == nonlinearModel(a, b_nl, c, d, y[t-1], u0, u0)`: the constant `u0` is both the
current and the previous control value at every step. -/
theorem simulateNonlinear_step (N : Int) (hN : 1 ≤ N) (hmax : N < 2147483647) (t : Nat)
    (ht : 1 ≤ t) (htN : (t : Int) ≤ N) (a b_nl c d y0 u0 : ℝ) :
    ∃ (y : List ℝ) (p : ℝ), simulateNonlinear Real.sin N a b_nl c d y0 u0 = some y ∧
      y[t - 1]? = some p ∧ y[t]? = some (nonlinearModel Real.sin a b_nl c d p u0 u0) := by
  obtain ⟨k, rfl⟩ : ∃ k, t = k + 1 := ⟨t - 1, by omega⟩
  obtain ⟨y, hy, -, -, hrec⟩ :=
    simulateNonlinear_spec Real.sin N (by omega) hmax a b_nl c d y0 u0
  obtain ⟨p, hp, hp1⟩ := hrec k (by omega)
  exact ⟨y, p, hy, by simpa using hp, hp1⟩

/-- Witness of `simulateNonlinear_step`: `N = 2`, `t = 2` (a step past the first) and the
coefficients of the test `SimulateNonlinearTest.MultipleSteps`. -/
theorem simulateNonlinear_step_witness :
    ∃ (y : List ℝ) (p : ℝ), simulateNonlinear Real.sin 2 0.8 0.12 0.05 0.02 20.0 5.0 = some y ∧
      y[2 - 1]? = some p ∧
      y[2]? = some (nonlinearModel Real.sin 0.8 0.12 0.05 0.02 p 5.0 5.0) :=
  simulateNonlinear_step 2 (by decide) (by decide) 2 (by decide) (by decide)
    0.8 0.12 0.05 0.02 20.0 5.0

/-- C7: in coupled mode (task01, `calculateLinear(N)` followed by `calculateNonlinear(N)`),
for every `N ≥ 1` and every `tau` with `0 ≤ tau < N`,
`nonlinear_temps[tau+1] == a*nonlinear_temps[tau] - b*yPrev^2 + c*control_signals[tau] +
d*sin(uPrev)`, where `yPrev` is `initialTemp` when `tau == 0` and `nonlinear_temps[tau-1]`
otherwise, and `uPrev` is `0` when `tau == 0` and `control_signals[tau-1]` otherwise; the
control values are those `calculateLinear` recorded (`control_signals[tau]` is
`generateControlSignal(tau)` and `calculateNonlinear` leaves the vector as it was). -/
theorem coupled_nonlinear_step (N : Int) (hN : 1 ≤ N) (tau : Nat) (htau : (tau : Int) < N)
    (m m1 m2 : TemperatureModel ℝ) (h1 : m1 = calculateLinear Real.sin m N)
    (h2 : m2 = calculateNonlinear Real.sin m1 N) :
    m2.control_signals = m1.control_signals ∧
    ∃ (y yPrev u uPrev : ℝ),
      m2.nonlinear_temps[tau]? = some y ∧
      (if tau = 0 then yPrev = m.initialTemp else m2.nonlinear_temps[tau - 1]? = some yPrev) ∧
      m1.control_signals[tau]? = some u ∧ u = generateControlSignal Real.sin (tau : Int) ∧
      (if tau = 0 then uPrev = 0 else m1.control_signals[tau - 1]? = some uPrev) ∧
      m2.nonlinear_temps[tau + 1]? =
        some (m.a * y - m.b * yPrev ^ 2 + m.c * u + m.d * Real.sin uPrev) := by
  obtain ⟨lt, cs, hm1, -, hcs, -, hrecL⟩ := calculateLinear_spec Real.sin m N
  rw [← h1] at hm1
  have hcs1 : N.toNat ≤ m1.control_signals.length := by rw [hm1]; exact hcs.ge
  obtain ⟨nt, hm2, -, -, hrecN⟩ := calculateNonlinear_spec Real.sin m1 N hcs1
  rw [← h2] at hm2
  have hlt : tau < N.toNat := by omega
  obtain ⟨y, yPrev, u, uPrev, hy, hyP, hu, huP, hstep⟩ := hrecN tau hlt
  have hgen : u = generateControlSignal Real.sin (tau : Int) := by
    have := (hrecL tau hlt).1
    rw [hm1] at hu
    simp only at hu
    rw [this] at hu
    exact (Option.some.inj hu).symm
  have ha : m1.a = m.a := by rw [hm1]
  have hb : m1.b = m.b := by rw [hm1]
  have hc : m1.c = m.c := by rw [hm1]
  have hd : m1.d = m.d := by rw [hm1]
  have hi : m1.initialTemp = m.initialTemp := by rw [hm1]
  rw [ha, hb, hc, hd] at hstep
  rw [hi] at hyP
  rw [hm2]
  exact ⟨rfl, y, yPrev, u, uPrev, hy, hyP, hu, hgen, huP, hstep⟩

/-- Witness of `coupled_nonlinear_step`: `N = 3`, `tau = 1` on the object built in `main` of
task01. -/
theorem coupled_nonlinear_step_witness :
    ∃ (m m1 m2 : TemperatureModel ℝ),
      m = TemperatureModel.new 0.98 0.05 0.03 0.02 25.0 20.0 ∧
      m1 = calculateLinear Real.sin m 3 ∧ m2 = calculateNonlinear Real.sin m1 3 ∧
      m2.control_signals = m1.control_signals ∧
      ∃ (y yPrev u uPrev : ℝ),
        m2.nonlinear_temps[1]? = some y ∧
        (if 1 = 0 then yPrev = m.initialTemp else m2.nonlinear_temps[1 - 1]? = some yPrev) ∧
        m1.control_signals[1]? = some u ∧ u = generateControlSignal Real.sin ((1 : Nat) : Int) ∧
        (if 1 = 0 then uPrev = 0 else m1.control_signals[1 - 1]? = some uPrev) ∧
        m2.nonlinear_temps[1 + 1]? =
          some (m.a * y - m.b * yPrev ^ 2 + m.c * u + m.d * Real.sin uPrev) :=
  ⟨_, _, _, rfl, rfl, rfl,
    coupled_nonlinear_step 3 (by decide) 1 (by decide) _ _ _ rfl rfl⟩

/-- C8, as stated, fails: `generateControlSignal(0)` is not `15.0`. -/
theorem generateControlSignal_zero_ne_fifteen :
    generateControlSignal Real.sin 0 ≠ (15.0 : ℝ) := by
  norm_num [generateControlSignal, BASE_SIGNAL, AMPLITUDE, FREQUENCY]

/-- C8, amended: `generateControlSignal(0) == 10.0`, the base signal, since `sin(0) = 0`. -/
theorem generateControlSignal_zero :
    generateControlSignal Real.sin 0 = (10.0 : ℝ) := by
  norm_num [generateControlSignal, BASE_SIGNAL, AMPLITUDE, FREQUENCY]

/-- C9: for every integer step index (`≥ 0`, and negative ones as well),
`generateControlSignal(step)` equals `10.0 + 5.0*sin(0.1*step)` and therefore lies in
`[5.0, 15.0]`; consequently every entry of `control_signals` after `calculateLinear(N)` lies
in `[5.0, 15.0]`, for every `N` and whatever the object held before. -/
theorem generateControlSignal_bounds (step : Int) (N : Int) (m : TemperatureModel ℝ) :
    generateControlSignal Real.sin step = 10.0 + 5.0 * Real.sin (0.1 * (step : ℝ)) ∧
    (5.0 : ℝ) ≤ generateControlSignal Real.sin step ∧
    generateControlSignal Real.sin step ≤ (15.0 : ℝ) ∧
    ∀ u, u ∈ (calculateLinear Real.sin m N).control_signals → (5.0 : ℝ) ≤ u ∧ u ≤ 15.0 := by
  have hb : ∀ k : Int, (5.0 : ℝ) ≤ generateControlSignal Real.sin k ∧
      generateControlSignal Real.sin k ≤ (15.0 : ℝ) := by
    intro k
    have hlo := Real.neg_one_le_sin ((0.1 : ℝ) * (k : ℝ))
    have hhi := Real.sin_le_one ((0.1 : ℝ) * (k : ℝ))
    simp only [generateControlSignal, BASE_SIGNAL, AMPLITUDE, FREQUENCY]
    constructor <;> norm_num at hlo hhi ⊢ <;> linarith
  refine ⟨rfl, (hb step).1, (hb step).2, ?_⟩
  intro u hu
  obtain ⟨lt, cs, hm, -, hcs, -, hrec⟩ := calculateLinear_spec Real.sin m N
  rw [hm] at hu
  obtain ⟨k, hk, rfl⟩ := List.getElem_of_mem hu
  have hk' : k < N.toNat := by rw [← hcs]; exact hk
  have hget := (hrec k hk').1
  rw [List.getElem?_eq_getElem hk] at hget
  have hval : cs[k] = generateControlSignal Real.sin (k : Int) := Option.some.inj hget
  show (5.0 : ℝ) ≤ cs[k] ∧ cs[k] ≤ 15.0
  rw [hval]
  exact hb k

/-- Witness of `generateControlSignal_bounds`: step 7, and `calculateLinear(100)` on the
object built in `main` of task01. -/
theorem generateControlSignal_bounds_witness :
    generateControlSignal Real.sin 7 = 10.0 + 5.0 * Real.sin (0.1 * ((7 : Int) : ℝ)) ∧
    (5.0 : ℝ) ≤ generateControlSignal Real.sin 7 ∧
    generateControlSignal Real.sin 7 ≤ (15.0 : ℝ) ∧
    ∀ u, u ∈ (calculateLinear Real.sin
        (TemperatureModel.new 0.98 0.05 0.03 0.02 25.0 20.0) 100).control_signals →
      (5.0 : ℝ) ≤ u ∧ u ≤ 15.0 :=
  generateControlSignal_bounds 7 100
    (TemperatureModel.new 0.98 0.05 0.03 0.02 25.0 20.0)

/-- C10: the step count is rejected (the run reports an error on `cerr`, returns exit status
1, and calls neither `simulateLinear` nor `simulateNonlinear`) if and only if `n ≤ 0` or
`n > 1000000`, and a rejected run does nothing but write the prompt and the error
message; for every `n` with `1 ≤ n ≤ 1000000` both simulations are run, with that `n` and
the constants of `main`: the run returns 0 and its trace is the prompt, the call of
`simulateLinear`, the call of `simulateNonlinear`, and the values `y[t]`, `t = 1..n`, that
the two calls returned, first the linear ones, then the nonlinear ones. -/
theorem main_rejects_iff (n : Int) :
    ((∃ trace, Task02.main Real.sin n = some (1, trace) ∧
        (∃ text, Event.cerr text ∈ trace) ∧ calls trace = []) ↔
      (n ≤ 0 ∨ n > 1000000)) ∧
    ((n ≤ 0 ∨ n > 1000000) →
      Task02.main Real.sin n = some (1,
        [Event.cout "Введите количество шагов моделирования: ",
         Event.cerr "Ошибка: n должно быть положительным и не превышать 1,000,000.\n"])) ∧
    (1 ≤ n ∧ n ≤ 1000000 →
      ∃ (y_linear y_nonlinear : List ℝ) (outLinear outNonlinear trace : List (Event ℝ)),
        simulateLinear n 0.8 0.1 20.0 5.0 = some y_linear ∧
        simulateNonlinear Real.sin n 0.8 0.12 0.05 0.02 20.0 5.0 = some y_nonlinear ∧
        Task02.main Real.sin n = some (0, trace) ∧
        trace =
          [Event.cout "Введите количество шагов моделирования: ",
           Event.call (Call.simulateLinear n 0.8 0.1 20.0 5.0),
           Event.call (Call.simulateNonlinear n 0.8 0.12 0.05 0.02 20.0 5.0),
           Event.cout "Результаты моделирования:\n",
           Event.cout "\n--- Линейная модель ---\n"] ++ outLinear ++
          [Event.cout "\n--- Нелинейная модель ---\n"] ++ outNonlinear ∧
        calls trace = [Call.simulateLinear n 0.8 0.1 20.0 5.0,
          Call.simulateNonlinear n 0.8 0.12 0.05 0.02 20.0 5.0] ∧
        (∀ t : Nat, 1 ≤ t → (t : Int) ≤ n →
          ∃ v, y_linear[t]? = some v ∧ outLinear[t - 1]? = some (Event.coutValue t v)) ∧
        (∀ t : Nat, 1 ≤ t → (t : Int) ≤ n →
          ∃ v, y_nonlinear[t]? = some v ∧
            outNonlinear[t - 1]? = some (Event.coutValue t v))) := by
  refine ⟨⟨?_, ?_⟩, main_of_invalid Real.sin n, ?_⟩
  · rintro ⟨trace, hrun, -, -⟩
    by_contra hguard
    obtain ⟨yl, yn, outL, outN, -, -, hmain, -⟩ :=
      main_of_valid Real.sin n (by omega) (by omega)
    rw [hrun] at hmain
    have hexit : (1 : Int) = 0 := congrArg Prod.fst (Option.some.inj hmain)
    exact absurd hexit (by decide)
  · intro hguard
    exact ⟨_, main_of_invalid Real.sin n hguard,
      ⟨"Ошибка: n должно быть положительным и не превышать 1,000,000.\n", by simp⟩, rfl⟩
  · rintro ⟨h1, h2⟩
    obtain ⟨yl, yn, outL, outN, hyl, hyn, hmain, hcl, hcn, hrl, hrn⟩ :=
      main_of_valid Real.sin n h1 h2
    refine ⟨yl, yn, outL, outN, _, hyl, hyn, hmain, rfl, ?_,
      fun t ht1 htn => hrl t ht1 (by omega), fun t ht1 htn => hrn t ht1 (by omega)⟩
    rw [calls_append, calls_append, calls_append, hcl, hcn]
    rfl

/-- Witness of `main_rejects_iff`: `n = 3` is accepted; both simulations are run and their
values at `t = 1, 2, 3` are written. -/
theorem main_rejects_iff_witness :
    ∃ (y_linear y_nonlinear : List ℝ) (outLinear outNonlinear trace : List (Event ℝ)),
      simulateLinear 3 0.8 0.1 20.0 5.0 = some y_linear ∧
      simulateNonlinear Real.sin 3 0.8 0.12 0.05 0.02 20.0 5.0 = some y_nonlinear ∧
      Task02.main Real.sin 3 = some (0, trace) ∧
      trace =
        [Event.cout "Введите количество шагов моделирования: ",
         Event.call (Call.simulateLinear 3 0.8 0.1 20.0 5.0),
         Event.call (Call.simulateNonlinear 3 0.8 0.12 0.05 0.02 20.0 5.0),
         Event.cout "Результаты моделирования:\n",
         Event.cout "\n--- Линейная модель ---\n"] ++ outLinear ++
        [Event.cout "\n--- Нелинейная модель ---\n"] ++ outNonlinear ∧
      calls trace = [Call.simulateLinear 3 0.8 0.1 20.0 5.0,
        Call.simulateNonlinear 3 0.8 0.12 0.05 0.02 20.0 5.0] ∧
      (∀ t : Nat, 1 ≤ t → (t : Int) ≤ 3 →
        ∃ v, y_linear[t]? = some v ∧ outLinear[t - 1]? = some (Event.coutValue t v)) ∧
      (∀ t : Nat, 1 ≤ t → (t : Int) ≤ 3 →
        ∃ v, y_nonlinear[t]? = some v ∧
          outNonlinear[t - 1]? = some (Event.coutValue t v)) :=
  (main_rejects_iff 3).2.2 ⟨by decide, by decide⟩

/-- C11: for every step count `N ≥ 1`, after `calculateLinear(N)` and
`calculateNonlinear(N)`, a `saveToFile` whose file opens writes exactly `N + 2` lines: the
header line `Step,u(tau),Linear_Model,Nonlinear_Model`, then one row for each step index
`i = 0..N` in increasing order, whose first field is `i`, third field is `linear_temps[i]`
and fourth field is `nonlinear_temps[i]`. -/
theorem saveToFile_lines (N : Int) (hN : 1 ≤ N) (m m2 : TemperatureModel ℝ)
    (h2 : m2 = calculateNonlinear Real.sin (calculateLinear Real.sin m N) N)
    (filename : String) :
    ∃ out lines, saveToFile m2 filename true = some out ∧ out.file = some lines ∧
      (lines.length : Int) = N + 2 ∧
      lines[0]? = some (Line.text "Step,u(tau),Linear_Model,Nonlinear_Model") ∧
      ∀ i : Nat, (i : Int) ≤ N → ∃ u linear nonlinear,
        lines[i + 1]? = some (Line.row i u linear nonlinear) ∧
        m2.linear_temps[i]? = some linear ∧ m2.nonlinear_temps[i]? = some nonlinear := by
  obtain ⟨lt, cs, hm1, hlt, hcs, -, -⟩ := calculateLinear_spec Real.sin m N
  obtain ⟨nt, hm2, hnt, -, -⟩ :=
    calculateNonlinear_spec Real.sin (calculateLinear Real.sin m N) N
      (by rw [hm1]; exact hcs.ge)
  rw [← h2] at hm2
  have hl2 : m2.linear_temps.length = N.toNat + 1 := by rw [hm2, hm1]; exact hlt
  have hn2 : m2.nonlinear_temps.length = N.toNat + 1 := by rw [hm2]; exact hnt
  obtain ⟨rows, hsave, hrows⟩ := saveToFile_spec m2 filename
  obtain ⟨hlen, hcol, -, -⟩ := rows_columns m2 rows hrows
  refine ⟨_, _, hsave, rfl, ?_, by simp, ?_⟩
  · simp only [List.length_cons]
    omega
  · intro i hi
    obtain ⟨u, linear, nonlinear, hr, hlin, hnl⟩ := hcol i (by omega) (by omega)
    exact ⟨u, linear, nonlinear, by simpa using hr, hlin, hnl⟩

/-- Witness of `saveToFile_lines`: `N = 3` on the object and the file name of `main` of
task01. -/
theorem saveToFile_lines_witness :
    ∃ (m2 : TemperatureModel ℝ),
      m2 = calculateNonlinear Real.sin
        (calculateLinear Real.sin (TemperatureModel.new 0.98 0.05 0.03 0.02 25.0 20.0) 3) 3 ∧
      ∃ out lines, saveToFile m2 "simulation_results.csv" true = some out ∧
        out.file = some lines ∧ (lines.length : Int) = 3 + 2 ∧
        lines[0]? = some (Line.text "Step,u(tau),Linear_Model,Nonlinear_Model") ∧
        ∀ i : Nat, (i : Int) ≤ 3 → ∃ u linear nonlinear,
          lines[i + 1]? = some (Line.row i u linear nonlinear) ∧
          m2.linear_temps[i]? = some linear ∧ m2.nonlinear_temps[i]? = some nonlinear :=
  ⟨_, rfl, saveToFile_lines 3 (by decide) _ _ rfl "simulation_results.csv"⟩

/-- C12: in task01 the results do not depend on what earlier calls left in the object.  For
all step counts `k` and `n` (`≥ 0`, and negative ones as well) and every prior state `m` of
the object, `nonlinear_temps` after `calculateLinear(k)` followed by `calculateNonlinear(n)`
(with `k < n`, where the fallback to `generateControlSignal` is taken, with `k = n` and with
`k > n`) equals `nonlinear_temps` after `calculateNonlinear(n)` on a freshly constructed
object with the same coefficients and `initialTemp`; and `calculateLinear(n)` on `m` yields
the same `linear_temps` and `control_signals` as on the fresh object. -/
theorem results_independent_of_earlier_calls (k n : Int) (m : TemperatureModel ℝ) :
    (calculateNonlinear Real.sin (calculateLinear Real.sin m k) n).nonlinear_temps =
      (calculateNonlinear Real.sin
        (TemperatureModel.new m.a m.b m.c m.d m.roomTemp m.initialTemp) n).nonlinear_temps ∧
    (calculateLinear Real.sin m n).linear_temps =
      (calculateLinear Real.sin
        (TemperatureModel.new m.a m.b m.c m.d m.roomTemp m.initialTemp) n).linear_temps ∧
    (calculateLinear Real.sin m n).control_signals =
      (calculateLinear Real.sin
        (TemperatureModel.new m.a m.b m.c m.d m.roomTemp m.initialTemp) n).control_signals := by
  constructor
  · obtain ⟨lt, cs, hm1, -, hcs, -, hrec⟩ := calculateLinear_spec Real.sin m k
    rw [hm1]
    simp only [calculateNonlinear]
    apply calculateNonlinear_fold_congr
    · intro j hj
      exact (hrec j (by simpa [hcs] using hj)).1
    · intro j hj
      simp [TemperatureModel.new] at hj
    all_goals rfl
  · simp only [calculateLinear]
    apply calculateLinear_fold_congr <;> rfl

/-- C13: with `a = 0.8`, `b = 0.1`, `y0 = 20.0`, `u0 = 5.0` and `N = 1`, `simulateLinear`
returns exactly the two-element trajectory `[20.0, 16.5]`, in exact arithmetic. -/
theorem simulateLinear_single_step :
    simulateLinear 1 (0.8 : ℝ) 0.1 20.0 5.0 = some [20.0, 16.5] := by
  have h1 : (1 : Int).toNat = 1 := rfl
  norm_num [simulateLinear, intAdd, INT_MIN, INT_MAX, simulateLinear.body, vectorOfSize,
    assign, linearModel, h1, List.range_succ, List.replicate]

/-- C14: with `a = 0.8`, `b_nl = 0.12`, `c = 0.05`, `d = 0.02`, `y0 = 20.0`, `u0 = 5.0` and
`N = 1`, `simulateNonlinear` returns a trajectory whose element 1 equals
`0.8*20 - 0.12*400 + 0.05*5 + 0.02*sin(5.0)`, that is `-31.75 + 0.02*sin(5)`. -/
theorem simulateNonlinear_single_step :
    ∃ y : List ℝ, simulateNonlinear Real.sin 1 0.8 0.12 0.05 0.02 20.0 5.0 = some y ∧
      y[1]? = some (0.8 * 20 - 0.12 * 400 + 0.05 * 5 + 0.02 * Real.sin 5.0) ∧
      y[1]? = some (-31.75 + 0.02 * Real.sin 5) := by
  have h1 : (1 : Int).toNat = 1 := rfl
  have hrun : simulateNonlinear Real.sin 1 (0.8 : ℝ) 0.12 0.05 0.02 20.0 5.0 =
      some [20.0, 0.8 * 20 - 0.12 * 400 + 0.05 * 5 + 0.02 * Real.sin 5.0] := by
    norm_num [simulateNonlinear, intAdd, INT_MIN, INT_MAX, simulateNonlinear.body,
      vectorOfSize, assign, nonlinearModel, h1, List.range_succ, List.replicate]
  refine ⟨_, hrun, by simp, ?_⟩
  simp only [List.getElem?_cons_succ, List.getElem?_cons_zero, Option.some.injEq]
  norm_num

/-- C15, as stated, fails: at `n = 2147483647` (`INT_MAX`, an `n ≥ 1`) the `int` size
`n + 1` overflows, so no vector of `n + 1` elements is allocated and neither
`simulateLinear` nor `simulateNonlinear` returns. -/
theorem simulations_not_total_at_int_max :
    intAdd 2147483647 1 = none ∧
    (simulateLinear 2147483647 (0.8 : ℝ) 0.1 20.0 5.0).isSome = false ∧
    (simulateNonlinear Real.sin 2147483647 (0.8 : ℝ) 0.12 0.05 0.02 20.0 5.0).isSome = false := by
  refine ⟨intAdd_one_of_ge (by decide), ?_, ?_⟩
  · rw [simulateLinear_of_overflow 2147483647 (by decide)]
    rfl
  · rw [simulateNonlinear_of_overflow Real.sin 2147483647 (by decide)]
    rfl

/-- C15, amended: `simulateLinear` and `simulateNonlinear` are total on
`0 ≤ n < 2147483647` (so on every `n` that `main` admits, `1 ≤ n ≤ 1000000`): the size
`n + 1` does not overflow, the vector is allocated with `n + 1` elements, and the
bounds-checked run never takes the out-of-range branch of an access `y[0]`, `y[t]` or
`y[t + 1]`, so it returns a vector. -/
theorem simulations_total (n : Int) (hn : 0 ≤ n) (hmax : n < 2147483647)
    (a b b_nl c d y0 u0 : ℝ) :
    (∃ (size : Int) (v : List ℝ), intAdd n 1 = some size ∧ vectorOfSize size = some v ∧
      (v.length : Int) = n + 1) ∧
    (simulateLinear n a b y0 u0).isSome = true ∧
    (simulateNonlinear Real.sin n a b_nl c d y0 u0).isSome = true := by
  refine ⟨⟨n + 1, _, intAdd_one_of_lt hn hmax, vectorOfSize_of_nonneg (by omega), ?_⟩, ?_, ?_⟩
  · simp only [List.length_replicate]
    omega
  · obtain ⟨y, hy, -⟩ := simulateLinear_spec n hn hmax a b y0 u0
    rw [hy]
    rfl
  · obtain ⟨y, hy, -⟩ := simulateNonlinear_spec Real.sin n hn hmax a b_nl c d y0 u0
    rw [hy]
    rfl

/-- Witness of `simulations_total`: `n = 3` (three iterations, reading `y[0..2]` and
writing `y[1..3]`) with the constants of `main` of task_02. -/
theorem simulations_total_witness :
    (∃ (size : Int) (v : List ℝ), intAdd 3 1 = some size ∧ vectorOfSize size = some v ∧
      (v.length : Int) = 3 + 1) ∧
    (simulateLinear 3 (0.8 : ℝ) 0.1 20.0 5.0).isSome = true ∧
    (simulateNonlinear Real.sin 3 0.8 0.12 0.05 0.02 20.0 5.0).isSome = true :=
  simulations_total 3 (by decide) (by decide) 0.8 0.1 0.12 0.05 0.02 20.0 5.0

/-- C16: after `calculateLinear(N)` with `N ≥ 0`, `control_signals` has exactly `N` entries
with `control_signals[k] == generateControlSignal(k)`, one fewer than `linear_temps`;
consequently, on any object holding these two vectors, in the rows produced by
`printResults` and by `saveToFile` the control-value column of row `i` equals
`control_signals[i]` for every `i < N`, and is the placeholder `0.0` in the final row
`i = N`, which is not a value of `generateControlSignal` (whose range is `[5, 15]`). -/
theorem control_column_placeholder (N : Int) (hN : 0 ≤ N) (m m' : TemperatureModel ℝ)
    (hl : m'.linear_temps = (calculateLinear Real.sin m N).linear_temps)
    (hc : m'.control_signals = (calculateLinear Real.sin m N).control_signals)
    (filename : String) :
    ((m'.control_signals.length : Int) = N ∧ (m'.linear_temps.length : Int) = N + 1 ∧
      ∀ k : Nat, (k : Int) < N →
        m'.control_signals[k]? = some (generateControlSignal Real.sin (k : Int))) ∧
    (∃ out, printResults m' = some out ∧
      (∀ i : Nat, (i : Int) < N → ∃ u linear nonlinear,
        out[5 + i]? = some (Line.row i u linear nonlinear) ∧
        m'.control_signals[i]? = some u) ∧
      ∃ linear nonlinear, out[5 + N.toNat]? = some (Line.row N.toNat 0.0 linear nonlinear)) ∧
    (∃ o lines, saveToFile m' filename true = some o ∧ o.file = some lines ∧
      (∀ i : Nat, (i : Int) < N → ∃ u linear nonlinear,
        lines[i + 1]? = some (Line.row i u linear nonlinear) ∧
        m'.control_signals[i]? = some u) ∧
      ∃ linear nonlinear,
        lines[N.toNat + 1]? = some (Line.row N.toNat 0.0 linear nonlinear)) ∧
    (∀ step : Int, generateControlSignal Real.sin step ≠ 0.0) := by
  obtain ⟨lt, cs, hm1, hlt, hcs, -, hrec⟩ := calculateLinear_spec Real.sin m N
  rw [hm1] at hl hc
  simp only at hl hc
  have hcl : m'.control_signals.length = N.toNat := by rw [hc]; exact hcs
  have hll : m'.linear_temps.length = N.toNat + 1 := by rw [hl]; exact hlt
  refine ⟨⟨by omega, by omega, ?_⟩, ?_, ?_, ?_⟩
  · intro k hk
    rw [hc]
    exact (hrec k (by omega)).1
  · obtain ⟨rows, out, hout, -, hidx, hrows⟩ := printResults_spec m'
    obtain ⟨-, -, hcol, hlast⟩ := rows_columns m' rows hrows
    refine ⟨out, hout, ?_, ?_⟩
    · intro i hi
      rw [hidx]
      exact hcol i (by omega) (by omega)
    · rw [hidx]
      exact hlast N.toNat (by omega) (by omega)
  · obtain ⟨rows, hsave, hrows⟩ := saveToFile_spec m' filename
    obtain ⟨-, -, hcol, hlast⟩ := rows_columns m' rows hrows
    refine ⟨_, _, hsave, rfl, ?_, ?_⟩
    · intro i hi
      obtain ⟨u, linear, nonlinear, hr, hu⟩ := hcol i (by omega) (by omega)
      exact ⟨u, linear, nonlinear, by simpa using hr, hu⟩
    · obtain ⟨linear, nonlinear, hr⟩ := hlast N.toNat (by omega) (by omega)
      exact ⟨linear, nonlinear, by simpa using hr⟩
  · intro step h0
    have h5 := (generateControlSignal_mem_range step).1
    rw [h0] at h5
    norm_num at h5

/-- Witness of `control_column_placeholder`: `N = 3`, on the object of `main` of task01 as
`calculateLinear(3)` leaves it. -/
theorem control_column_placeholder_witness :
    ∃ (m' : TemperatureModel ℝ),
      m' = calculateLinear Real.sin (TemperatureModel.new 0.98 0.05 0.03 0.02 25.0 20.0) 3 ∧
      ((m'.control_signals.length : Int) = 3 ∧ (m'.linear_temps.length : Int) = 3 + 1 ∧
        ∀ k : Nat, (k : Int) < 3 →
          m'.control_signals[k]? = some (generateControlSignal Real.sin (k : Int))) ∧
      (∃ out, printResults m' = some out ∧
        (∀ i : Nat, (i : Int) < 3 → ∃ u linear nonlinear,
          out[5 + i]? = some (Line.row i u linear nonlinear) ∧
          m'.control_signals[i]? = some u) ∧
        ∃ linear nonlinear,
          out[5 + (3 : Int).toNat]? = some (Line.row (3 : Int).toNat 0.0 linear nonlinear)) ∧
      (∃ o lines, saveToFile m' "simulation_results.csv" true = some o ∧
        o.file = some lines ∧
        (∀ i : Nat, (i : Int) < 3 → ∃ u linear nonlinear,
          lines[i + 1]? = some (Line.row i u linear nonlinear) ∧
          m'.control_signals[i]? = some u) ∧
        ∃ linear nonlinear,
          lines[(3 : Int).toNat + 1]? =
            some (Line.row (3 : Int).toNat 0.0 linear nonlinear)) ∧
      (∀ step : Int, generateControlSignal Real.sin step ≠ 0.0) :=
  ⟨_, rfl, control_column_placeholder 3 (by decide)
    (TemperatureModel.new 0.98 0.05 0.03 0.02 25.0 20.0) _ rfl rfl "simulation_results.csv"⟩

/-- C17, as stated, fails twice.  At `n = 2147483647` (`INT_MAX`) the `int` size `n + 1`
overflows and no trajectory is returned.  And the closed form is an identity of exact
arithmetic only: in `double` arithmetic, with the constants of `main` of task_02 (`a` and
`b` the binary64 values nearest to `0.8` and `0.1`, `y0 = 20`, `u0 = 5`) and `n = t = 2`, the
run is `[20, 16.5, 7712414361871975 * 2^-49]` (`13.700000000000001...`), and its element 2
is not `a^2 * y0 + b*u0 * (a^0 + a^1)` taken on the same four values. -/
theorem simulateLinear_closed_form_fails :
    simulateLinear 2147483647 (0.8 : ℝ) 0.1 20.0 5.0 = none ∧
    (|Binary64.toRat ⟨3602879701896397, -52⟩ - 0.8| ≤ 2 ^ (-54 : Int) ∧
      |Binary64.toRat ⟨3602879701896397, -55⟩ - 0.1| ≤ 2 ^ (-57 : Int) ∧
      Binary64.toRat ⟨5, 2⟩ = 20 ∧ Binary64.toRat ⟨5, 0⟩ = 5) ∧
    simulateLinear 2 (⟨3602879701896397, -52⟩ : Binary64) ⟨3602879701896397, -55⟩ ⟨5, 2⟩ ⟨5, 0⟩ =
      some [⟨5, 2⟩, ⟨33, -1⟩, ⟨7712414361871975, -49⟩] ∧
    Binary64.toRat ⟨7712414361871975, -49⟩ ≠
      Binary64.toRat ⟨3602879701896397, -52⟩ ^ 2 * Binary64.toRat ⟨5, 2⟩ +
        Binary64.toRat ⟨3602879701896397, -55⟩ * Binary64.toRat ⟨5, 0⟩ *
          ∑ i ∈ Finset.range 2, Binary64.toRat ⟨3602879701896397, -52⟩ ^ i := by
  refine ⟨simulateLinear_of_overflow 2147483647 (by decide) _ _ _ _, ?_, ?_, ?_⟩
  · norm_num [Binary64.toRat, abs_le]
  · set_option maxRecDepth 100000 in decide
  · norm_num [Binary64.toRat, Finset.sum_range_succ]

/-- C17, amended: for every `n` with `0 ≤ n < 2147483647` (so that the `int` size `n + 1`
does not overflow) and every `t` with `0 ≤ t ≤ n`: in exact arithmetic, for all real `a`,
`b`, `y0`, `u0`, the vector `y` returned by `simulateLinear(n,a,b,y0,u0)` satisfies
`y[t] == a^t * y0 + b*u0 * (sum of a^i for i = 0..t-1)`; and in any arithmetic (the rounded
`double` arithmetic included), `y[0] == y0` and, if `y0 == a*y0 + b*u0` as `linearModel`
computes it, every element of the trajectory equals `y0`. -/
theorem simulateLinear_closed_form (n : Int) (hn : 0 ≤ n) (hmax : n < 2147483647) (t : Nat)
    (ht : (t : Int) ≤ n) :
    (∀ a b y0 u0 : ℝ, ∃ y : List ℝ, simulateLinear n a b y0 u0 = some y ∧
      y[t]? = some (a ^ t * y0 + b * u0 * ∑ i ∈ Finset.range t, a ^ i)) ∧
    (∀ (α : Type) [Zero α] [Add α] [Mul α] (a b y0 u0 : α),
      ∃ y : List α, simulateLinear n a b y0 u0 = some y ∧ y[0]? = some y0 ∧
        (linearModel a b y0 u0 = y0 → ∀ v, v ∈ y → v = y0)) := by
  constructor
  · intro a b y0 u0
    obtain ⟨y, hy, hlen, h0, hrec⟩ := simulateLinear_spec n hn hmax a b y0 u0
    have hclosed : ∀ j, j ≤ n.toNat →
        y[j]? = some (a ^ j * y0 + b * u0 * ∑ i ∈ Finset.range j, a ^ i) := by
      intro j
      induction j with
      | zero => intro _; simpa using h0
      | succ j ih =>
        intro hj
        obtain ⟨p, hp, hp1⟩ := hrec j (by omega)
        rw [ih (by omega)] at hp
        obtain rfl := Option.some.inj hp
        have hsum : ∑ i ∈ Finset.range j, a ^ (i + 1) = a * ∑ i ∈ Finset.range j, a ^ i := by
          rw [Finset.mul_sum]
          exact Finset.sum_congr rfl (fun i _ => by ring)
        rw [hp1, linearModel, Finset.sum_range_succ', hsum]
        congr 1
        ring
    exact ⟨y, hy, hclosed t (by omega)⟩
  · intro α _ _ _ a b y0 u0
    obtain ⟨y, hy, hlen, h0, hrec⟩ := simulateLinear_spec n hn hmax a b y0 u0
    refine ⟨y, hy, h0, ?_⟩
    intro hfix
    have hconst : ∀ j, j ≤ n.toNat → y[j]? = some y0 := by
      intro j
      induction j with
      | zero => intro _; exact h0
      | succ j ih =>
        intro hj
        obtain ⟨p, hp, hp1⟩ := hrec j (by omega)
        rw [ih (by omega)] at hp
        obtain rfl := Option.some.inj hp
        rw [hp1, hfix]
    intro v hv
    obtain ⟨j, hj⟩ := List.mem_iff_getElem?.mp hv
    have hjlt : j < y.length := by
      by_contra hge
      rw [List.getElem?_eq_none (by omega)] at hj
      exact absurd hj (by simp)
    rw [hconst j (by omega)] at hj
    exact (Option.some.inj hj).symm

/-- Witness of `simulateLinear_closed_form`: `n = 3`, `t = 2`; the closed form with the
coefficients of the test `SimulateLinearTest.MultipleSteps`, and the fixed point
`0.5*10 + 0.5*10 = 10` in `double` arithmetic, where the trajectory is constant. -/
theorem simulateLinear_closed_form_witness :
    (∃ y : List ℝ, simulateLinear 3 0.5 0.2 10.0 2.0 = some y ∧
      y[2]? = some ((0.5 : ℝ) ^ 2 * 10.0 + 0.2 * 2.0 * ∑ i ∈ Finset.range 2, (0.5 : ℝ) ^ i)) ∧
    (∃ y : List Binary64, simulateLinear 3 ⟨1, -1⟩ ⟨1, -1⟩ ⟨5, 1⟩ ⟨5, 1⟩ = some y ∧
      y[0]? = some ⟨5, 1⟩ ∧ ∀ v, v ∈ y → v = ⟨5, 1⟩) :=
  ⟨(simulateLinear_closed_form 3 (by decide) (by decide) 2 (by decide)).1 0.5 0.2 10.0 2.0,
   ((simulateLinear_closed_form 3 (by decide) (by decide) 2 (by decide)).2 Binary64
      ⟨1, -1⟩ ⟨1, -1⟩ ⟨5, 1⟩ ⟨5, 1⟩).imp fun _ h => ⟨h.1, h.2.1, h.2.2 (by decide)⟩⟩

end TMAU
